import Mathlib

/-!
Shallow embedding of the single-file pipeline loader
(src/src/diffusers/loaders/single_file.py) and proofs about its
component-resolution, dispatch and assembly behaviour.

External collaborators (the hub downloader, the tensor codec, the
per-component converters, reflective class resolution) are modelled as
oracle fields of an `Env` record; the control flow, branch conditions and
data plumbing of the source module are translated directly.
-/

set_option autoImplicit false

/-- Opaque token standing for an instantiated component object. -/
abbrev Component := Nat

/-- Opaque token standing for a loaded checkpoint (mapping of tensor keys). -/
abbrev Checkpoint := Nat

/-- Opaque token standing for a fetched original training config. -/
abbrev OrigCfg := Nat

/-- Opaque token standing for a torch dtype. -/
abbrev Dtype := Nat

/-- A manifest component spec: the pair (library_name, class_name), either
of which can be the Python value None. -/
abbrev CompSpec := Option String × Option String

/-- Reflective view of a Python class reference: its name and the
capability checks the source performs on it. -/
structure ClassObj where
  name : String
  from_original_model_mixin : Bool
  pretrained_model : Bool
  pretrained_tokenizer : Bool
  model_mixin : Bool
  scheduler_mixin : Bool
  torch_nn_module : Bool
  has_from_pretrained : Bool
deriving Repr, DecidableEq

/-- The pipeline manifest: component entries plus the two bookkeeping keys
the source reads or strips (the pipeline class name and the ignore list). -/
structure ConfigDict where
  entries : List (String × CompSpec)
  class_name : Option String
  has_ignore_files : Bool
deriving Repr, DecidableEq

/-- The single loading strategy chosen for a component, with the arguments
the source passes to the corresponding external loader. -/
inductive LoadStrategy where
  | single_file (checkpoint : Checkpoint) (original_config : Option OrigCfg)
      (config : Option String) (subfolder : String) (torch_dtype : Option Dtype)
      (local_files_only : Bool)
  | clip_from_ldm (checkpoint : Checkpoint) (config : String) (subfolder : String)
      (torch_dtype : Option Dtype) (local_files_only : Bool) (is_legacy_loading : Bool)
  | from_pretrained (path : String) (subfolder : String) (local_files_only : Bool)
      (use_safetensors : Option Bool) (torch_dtype_passed : Bool) (torch_dtype : Option Dtype)
deriving Repr, DecidableEq

/-- Observable side effects of a `from_single_file` run, in order. -/
inductive Event where
  | deprecated (arg : String)
  | fetch_original (src : String)
  | load_checkpoint (path : String)
  | hub_download (repo : String)
  | load_local_config (dir : String)
  | legacy_synth_warning
  | fallback_warning (name : String)
  | load_sub_model (name : String) (library_name : String) (class_name : String)
      (is_legacy_loading : Bool)
  | legacy_safety_checker
  | legacy_scheduler (pipeline_class_name : String) (scheduler_type : String)
deriving Repr, DecidableEq

/-- The error taxonomy of the module, carrying exactly the data the source
interpolates into each raised message. -/
inductive SFError where
  | user_contract_violation
  | unresolvable_identity (path : String)
  | unsupported_component (class_name : String)
  | under_specified_pipeline (pipeline_class : String) (expected : List String)
      (passed : List String)
  | unbound_class_name
deriving Repr, DecidableEq

/-- Oracles for every external collaborator the source calls. -/
structure Env where
  transformers_available : Bool
  transformers_version_ge_4_20 : Bool
  resolve_class : Bool → String → String → ClassObj
  is_clip_model_in_single_file : ClassObj → Checkpoint → Bool
  has_pipeline_module : String → Bool
  is_dir : String → Bool
  load_checkpoint : String → Checkpoint
  fetch_diffusers_config : Checkpoint → String
  hub_download_config : String → Option ConfigDict
  load_local_config : String → ConfigDict
  fetch_original_config : String → Bool → OrigCfg
  run_strategy : LoadStrategy → Component
  auto_image_processor_from_pretrained : String → Bool → Component
  safety_checker_from_pretrained : String → Bool → Option Dtype → Component
  legacy_scheduler : String → Checkpoint → Option OrigCfg → String → Option String → Component

/-- The check `is_transformers_available() and issubclass(class_obj,
PreTrainedModel) and transformers_version >= 4.20.0` of the source. -/
def is_transformers_model_check (env : Env) (c : ClassObj) : Bool :=
  env.transformers_available && c.pretrained_model && env.transformers_version_ge_4_20

/-- The analogous check against PreTrainedTokenizer. -/
def is_transformers_tokenizer_check (env : Env) (c : ClassObj) : Bool :=
  env.transformers_available && c.pretrained_tokenizer && env.transformers_version_ge_4_20

/-- One iteration of `_map_component_types_to_config_dict`: classify a single
declared constructor parameter type into a manifest spec. -/
def _map_component_type (env : Env) (c : ClassObj) : CompSpec :=
  let is_diffusers_model := c.model_mixin
  let is_scheduler_enum := c.name == "KarrasDiffusionSchedulers"
  let is_scheduler := c.scheduler_mixin
  let is_transformers_model := is_transformers_model_check env c
  let is_transformers_tokenizer := is_transformers_tokenizer_check env c
  if is_diffusers_model then
    (some "diffusers", some c.name)
  else if is_scheduler_enum || is_scheduler then
    (if is_scheduler_enum then (some "diffusers", some "DDIMScheduler")
     else (some "diffusers", some c.name))
  else if is_transformers_model || is_transformers_tokenizer then
    (some "transformers", some c.name)
  else if is_transformers_model && (c.name == "StableDiffusionSafetyChecker") then
    (some "stable_diffusion", some c.name)
  else
    (none, none)

/-- `_map_component_types_to_config_dict`: classify every declared
constructor parameter type, after dropping the `self` entry. -/
def _map_component_types_to_config_dict (env : Env) (component_types : List (String × ClassObj)) :
    List (String × CompSpec) :=
  (component_types.filter (fun kv => kv.1 != "self")).map
    (fun kv => (kv.1, _map_component_type env kv.2))

/-- `load_single_file_sub_model`: resolve the class reference, probe its
capabilities in the fixed source order, and return the unique strategy to
invoke (with the argument values the source passes), or the error the
source raises. Warnings emitted on the way are returned as events. -/
def load_single_file_sub_model (env : Env) (library_name : String) (class_name : String)
    (pretrained_model_name_or_path : String) (name : String) (checkpoint : Checkpoint)
    (is_pipeline_module : Bool) (original_config : Option OrigCfg) (local_files_only : Bool)
    (torch_dtype : Option Dtype) (use_safetensors : Option Bool) (is_legacy_loading : Bool) :
    Except SFError (LoadStrategy × List Event) :=
  let class_obj := env.resolve_class is_pipeline_module library_name class_name
  let is_transformers_model := is_transformers_model_check env class_obj
  let is_diffusers_single_file_model := class_obj.from_original_model_mixin
  let is_diffusers_model := class_obj.model_mixin
  if is_diffusers_single_file_model then
    let cfg := if original_config.isSome then none else some pretrained_model_name_or_path
    .ok (.single_file checkpoint original_config cfg name torch_dtype local_files_only, [])
  else if is_transformers_model && env.is_clip_model_in_single_file class_obj checkpoint then
    .ok (.clip_from_ldm checkpoint pretrained_model_name_or_path name torch_dtype
          local_files_only is_legacy_loading, [])
  else if !class_obj.has_from_pretrained then
    .error (.unsupported_component class_obj.name)
  else
    let evs := if is_diffusers_model then [Event.fallback_warning name] else []
    .ok (.from_pretrained pretrained_model_name_or_path name local_files_only use_safetensors
          class_obj.torch_nn_module torch_dtype, evs)

/-- Caller arguments to `from_single_file`: the recognized keyword options
the source pops, plus the residual keyword bag holding caller-passed
component instances (an entry with value `none` is an explicitly passed
Python None). -/
structure Args where
  original_config_file : Option String
  config : Option String
  original_config : Option String
  local_files_only : Bool
  torch_dtype : Option Dtype
  use_safetensors : Option Bool
  scaling_factor : Option Nat
  prediction_type : Option String
  load_safety_checker : Option Bool
  scheduler_type : Option String
  kwargs : List (String × Option Component)
deriving Repr, DecidableEq

/-- Reflective view of the resolved target pipeline class: its name, the
declared constructor parameter types, the signature key partition and the
optional component list. -/
structure PipelineClass where
  name : String
  signature_types : List (String × ClassObj)
  expected_modules : List String
  optional_kwargs : List String
  optional_components : List String
deriving Repr, DecidableEq

/-- A value stored in the final constructor keyword set: either a component
instance (or an explicit None), or a raw manifest value moved over from the
config dict for an optional keyword. -/
inductive KwValue where
  | comp (c : Option Component)
  | raw (v : CompSpec)
deriving Repr, DecidableEq

/-- Python dict assignment on an association list: replace the first entry
with the given key in place, or append a new entry. -/
def setKey {α : Type} : List (String × α) → String → α → List (String × α)
  | [], k, v => [(k, v)]
  | (a, b) :: rest, k, v =>
      if a == k then (k, v) :: rest else (a, b) :: setKey rest k v

/-- The value of the local `original_config` after the deprecated
`original_config_file` alias is folded into it. -/
def effective_original_config (args : Args) : Option String :=
  match args.original_config_file with
  | some f => some f
  | none => args.original_config

/-- The fetched original config object, when one was requested. -/
def fetched_original_config (env : Env) (args : Args) : Option OrigCfg :=
  (effective_original_config args).map
    (fun oc => env.fetch_original_config oc args.local_files_only)

/-- The `default_pretrained_model_name_or_path` the source computes: the
`config` argument when truthy, else the identity inferred from the
checkpoint. -/
def resolved_default_path (env : Env) (link : String) (args : Args) : String :=
  match args.config with
  | some c => if c.isEmpty then env.fetch_diffusers_config (env.load_checkpoint link) else c
  | none => env.fetch_diffusers_config (env.load_checkpoint link)

/-- Number of occurrences of the path separator in an identity string,
as in the source check `path.count("/") > 1`. -/
def count_slash (s : String) : Nat :=
  (s.toList.filter (fun ch => ch == '/')).length

/-- The declared constructor parameter types minus the optional components,
as filtered in the cache-miss branch of `from_single_file`. -/
def filtered_signature_types (pc : PipelineClass) : List (String × ClassObj) :=
  pc.signature_types.filter (fun kv => !pc.optional_components.contains kv.1)

/-- The manifest synthesized on a local cache miss: classified constructor
parameter types plus the pipeline class name. -/
def synthesized_config_dict (env : Env) (pc : PipelineClass) : ConfigDict :=
  { entries := _map_component_types_to_config_dict env (filtered_signature_types pc),
    class_name := some pc.name,
    has_ignore_files := false }

/-- The config resolution chain of `from_single_file`: local directory load,
or hub manifest fetch falling back to synthesis on a local cache miss, with
the identity validity check in front of the fetch. Returns the config dict,
the `is_legacy_loading` provenance flag, and the events performed. -/
def resolve_config_dict (env : Env) (pc : PipelineClass) (default_path : String) :
    Except SFError (ConfigDict × Bool) × List Event :=
  if env.is_dir default_path then
    (.ok (env.load_local_config default_path, false), [.load_local_config default_path])
  else if count_slash default_path > 1 then
    (.error (.unresolvable_identity default_path), [])
  else
    match env.hub_download_config default_path with
    | some cd => (.ok (cd, false), [.hub_download default_path])
    | none =>
        (.ok (synthesized_config_dict env pc, true),
         [.hub_download default_path, .legacy_synth_warning])

/-- Modelled from the spec: the external `extract_init_dict` of the
configuration mixin (its source is not under src) partitions the manifest
into the parameters declared by the pipeline signature, keeping the entries
whose key names a declared parameter. -/
def extract_init_dict (pc : PipelineClass) (cd : ConfigDict) : List (String × CompSpec) :=
  cd.entries.filter (fun kv =>
    pc.expected_modules.contains kv.1 || pc.optional_kwargs.contains kv.1)

/-- `passed_class_obj`: the caller-passed instances for expected module
names, popped from the keyword bag in expected-module order. -/
def passed_class_obj (pc : PipelineClass) (kwargs : List (String × Option Component)) :
    List (String × Option Component) :=
  pc.expected_modules.filterMap (fun k => (kwargs.lookup k).map (fun v => (k, v)))

/-- `passed_pipe_kwargs`: the caller-passed values for optional keywords
still left in the bag after the expected modules were popped. -/
def passed_pipe_kwargs (pc : PipelineClass) (kwargs : List (String × Option Component)) :
    List (String × Option Component) :=
  pc.optional_kwargs.filterMap (fun k =>
    if pc.expected_modules.contains k then none
    else (kwargs.lookup k).map (fun v => (k, v)))

/-- The optional-keyword entries moved out of the init dict into the
constructor keyword set (the dict comprehension over `optional_kwargs`). -/
def moved_optional_entries (pc : PipelineClass) (init_dict : List (String × CompSpec)) :
    List (String × CompSpec) :=
  pc.optional_kwargs.filterMap (fun k =>
    if pc.optional_components.contains k then none
    else (init_dict.lookup k).map (fun v => (k, v)))

/-- The init dict after the moved optional-keyword entries are popped out. -/
def init_dict_after_move (pc : PipelineClass) (init_dict : List (String × CompSpec)) :
    List (String × CompSpec) :=
  init_dict.filter (fun kv =>
    !(pc.optional_kwargs.contains kv.1 && !pc.optional_components.contains kv.1))

/-- The `load_module` filter of `from_single_file`: drop a component whose
spec has a None library, or one the caller explicitly disabled with None. -/
def load_module (pco : List (String × Option Component)) (name : String) (value : CompSpec) :
    Bool :=
  if value.1.isNone then false
  else
    match pco.lookup name with
    | some none => false
    | _ => true

/-- The constructor keyword set before the loading loop: moved optional
keyword entries merged with the caller-passed pipeline keywords. -/
def initial_init_kwargs (pc : PipelineClass) (init_dict : List (String × CompSpec))
    (ppk : List (String × Option Component)) : List (String × KwValue) :=
  let base := (moved_optional_entries pc init_dict).map (fun kv => (kv.1, KwValue.raw kv.2))
  ppk.foldl (fun acc kv => setKey acc kv.1 (KwValue.comp kv.2)) base

/-- The loading set of a run: extract the signature entries from the
manifest (after the ignore-files key is stripped), pop the moved optional
keywords, and drop null or explicitly disabled components. -/
def pipeline_init_dict (pc : PipelineClass) (cd0 : ConfigDict)
    (kwargs : List (String × Option Component)) : List (String × CompSpec) :=
  let cd : ConfigDict := { cd0 with has_ignore_files := false }
  let init_dict0 := extract_init_dict pc cd
  (init_dict_after_move pc init_dict0).filter
    (fun kv => load_module (passed_class_obj pc kwargs) kv.1 kv.2)

/-- The constructor keyword set handed to the loading loop for a run. -/
def pipeline_init_kwargs0 (pc : PipelineClass) (cd0 : ConfigDict)
    (kwargs : List (String × Option Component)) : List (String × KwValue) :=
  let cd : ConfigDict := { cd0 with has_ignore_files := false }
  initial_init_kwargs pc (extract_init_dict pc cd) (passed_pipe_kwargs pc kwargs)

/-- State threaded through the component loading loop: the constructor
keyword set built so far, the events emitted so far, and the current value
of the loop variable `class_name` (None while the loop body never ran). -/
structure LoopState where
  init_kwargs : List (String × KwValue)
  events : List Event
  last_class_name : Option String
deriving Repr, DecidableEq

/-- The component loading loop of `from_single_file`: caller-passed
instances pass through, everything else goes through the dispatcher and the
chosen strategy is executed. On a dispatch error the loop aborts, keeping
the events emitted so far. -/
def load_components (env : Env) (ck : Checkpoint) (default_path : String)
    (oc : Option OrigCfg) (args : Args) (is_legacy_loading : Bool)
    (pco : List (String × Option Component)) :
    List (String × CompSpec) → LoopState → LoopState × Option SFError
  | [], st => (st, none)
  | (name, spec) :: rest, st =>
      let library_name := spec.1.getD ""
      let class_name := spec.2.getD ""
      let is_pipeline_module := env.has_pipeline_module library_name
      match pco.lookup name with
      | some v =>
          load_components env ck default_path oc args is_legacy_loading pco rest
            { init_kwargs := setKey st.init_kwargs name (KwValue.comp v),
              events := st.events,
              last_class_name := some class_name }
      | none =>
          match load_single_file_sub_model env library_name class_name default_path name ck
              is_pipeline_module oc args.local_files_only args.torch_dtype
              args.use_safetensors is_legacy_loading with
          | .error e => (st, some e)
          | .ok (strategy, evs) =>
              let comp := env.run_strategy strategy
              load_components env ck default_path oc args is_legacy_loading pco rest
                { init_kwargs := setKey st.init_kwargs name (KwValue.comp (some comp)),
                  events := st.events
                    ++ [.load_sub_model name library_name class_name is_legacy_loading]
                    ++ evs,
                  last_class_name := some class_name }

/-- The expected modules still missing from the constructor keyword set. -/
def missing_modules (pc : PipelineClass) (ik : List (String × KwValue)) : List String :=
  pc.expected_modules.filter (fun m => (ik.lookup m).isNone)

/-- The component-name set interpolated into the under-specification error:
the union of built keyword names and caller-passed names, minus the
optional keywords. -/
def passed_for_error (pc : PipelineClass) (ik : List (String × KwValue))
    (pco : List (String × Option Component)) : List String :=
  ((ik.map (fun kv => kv.1)) ++ (pco.map (fun kv => kv.1))).dedup.filter
    (fun k => !pc.optional_kwargs.contains k)

/-- The missing-modules check of `from_single_file`: fill every missing
module excusable as passed or optional with the caller value (or None),
otherwise raise the under-specification error. -/
def fill_or_fail (pc : PipelineClass) (pco : List (String × Option Component))
    (ik : List (String × KwValue)) : Except SFError (List (String × KwValue)) :=
  let missing := missing_modules pc ik
  if missing.length > 0 &&
      missing.all (fun m => pco.any (fun kv => kv.1 == m) || pc.optional_components.contains m) then
    .ok (missing.foldl (fun acc m => setKey acc m (KwValue.comp ((pco.lookup m).getD none))) ik)
  else if missing.length > 0 then
    .error (.under_specified_pipeline pc.name pc.expected_modules (passed_for_error pc ik pco))
  else
    .ok ik

/-- `_legacy_load_safety_checker`: load the fixed default safety checker and
feature extractor through the external pretrained loaders. -/
def _legacy_load_safety_checker (env : Env) (local_files_only : Bool)
    (torch_dtype : Option Dtype) : List (String × KwValue) :=
  let feature_extractor := env.auto_image_processor_from_pretrained
    "CompVis/stable-diffusion-safety-checker" local_files_only
  let safety_checker := env.safety_checker_from_pretrained
    "CompVis/stable-diffusion-safety-checker" local_files_only torch_dtype
  [("safety_checker", KwValue.comp (some safety_checker)),
   ("feature_extractor", KwValue.comp (some feature_extractor))]

/-- The two deprecated legacy code paths run after assembly. The scheduler
path reads the loop variable `class_name`; when the loop body never ran
that local is unbound and the source dies with a NameError, modelled as
`unbound_class_name`. The external legacy scheduler constructor (its source
is not under src) is modelled from the spec as producing one scheduler
component stored under the `scheduler` keyword. -/
def apply_legacy_paths (env : Env) (ck : Checkpoint) (oc : Option OrigCfg) (args : Args)
    (last_class_name : Option String) (ik : List (String × KwValue)) :
    Except SFError (List (String × KwValue)) × List Event :=
  let step1 :=
    match args.load_safety_checker with
    | some _ =>
        ((_legacy_load_safety_checker env args.local_files_only args.torch_dtype).foldl
           (fun acc (kv : String × KwValue) => setKey acc kv.1 kv.2) ik,
         [Event.deprecated "load_safety_checker", Event.legacy_safety_checker])
    | none => (ik, ([] : List Event))
  match args.scheduler_type with
  | some stype =>
      match last_class_name with
      | none => (.error .unbound_class_name, step1.2 ++ [Event.deprecated "scheduler_type"])
      | some cn =>
          let sched := env.legacy_scheduler cn ck oc stype args.prediction_type
          (.ok (setKey step1.1 "scheduler" (KwValue.comp (some sched))),
           step1.2 ++ [Event.deprecated "scheduler_type", Event.legacy_scheduler cn stype])
  | none => (.ok step1.1, step1.2)

/-- The final observable outcome of a successful `from_single_file` call:
the fully merged constructor keyword set, the provenance flag, and the
requested dtype cast. -/
structure FromSingleFileResult where
  pipe_kwargs : List (String × KwValue)
  is_legacy_loading : Bool
  dtype_cast : Option Dtype
deriving Repr, DecidableEq

/-- The deprecation warnings emitted before the mutual-exclusion check. -/
def deprecation_events0 (args : Args) : List Event :=
  match args.original_config_file with
  | some _ => [Event.deprecated "original_config_file"]
  | none => []

/-- All events of the entry phase, through checkpoint acquisition. -/
def early_events (_env : Env) (link : String) (args : Args) : List Event :=
  deprecation_events0 args
    ++ (if args.scaling_factor.isSome then [Event.deprecated "scaling_factor"] else [])
    ++ (if args.prediction_type.isSome then [Event.deprecated "prediction_type"] else [])
    ++ (match effective_original_config args with
        | some oc => [Event.fetch_original oc]
        | none => [])
    ++ [Event.load_checkpoint link]

/-- `FromSingleFileMixin.from_single_file`: the full call, returning the
outcome and the ordered event trace. -/
def from_single_file (env : Env) (pc : PipelineClass) (link : String) (args : Args) :
    Except SFError FromSingleFileResult × List Event :=
  if args.config.isSome && (effective_original_config args).isSome then
    (.error .user_contract_violation, deprecation_events0 args)
  else
    let original_config := fetched_original_config env args
    let checkpoint := env.load_checkpoint link
    let default_path := resolved_default_path env link args
    match resolve_config_dict env pc default_path with
    | (.error e, evc) => (.error e, early_events env link args ++ evc)
    | (.ok (cd0, is_legacy), evc) =>
        match load_components env checkpoint default_path original_config args is_legacy
            (passed_class_obj pc args.kwargs) (pipeline_init_dict pc cd0 args.kwargs)
            { init_kwargs := pipeline_init_kwargs0 pc cd0 args.kwargs,
              events := [], last_class_name := none } with
        | (st, some e) => (.error e, early_events env link args ++ evc ++ st.events)
        | (st, none) =>
            match fill_or_fail pc (passed_class_obj pc args.kwargs) st.init_kwargs with
            | .error e => (.error e, early_events env link args ++ evc ++ st.events)
            | .ok ik1 =>
                match apply_legacy_paths env checkpoint original_config args
                    st.last_class_name ik1 with
                | (.error e, evl) =>
                    (.error e, early_events env link args ++ evc ++ st.events ++ evl)
                | (.ok ik2, evl) =>
                    (.ok { pipe_kwargs := ik2, is_legacy_loading := is_legacy,
                           dtype_cast := args.torch_dtype },
                     early_events env link args ++ evc ++ st.events ++ evl)

/-- Concrete class fixture: a diffusers model with native single-file
support (a UNet-like class). -/
def unetClass : ClassObj :=
  { name := "UNet2DConditionModel", from_original_model_mixin := true,
    pretrained_model := false, pretrained_tokenizer := false, model_mixin := true,
    scheduler_mixin := false, torch_nn_module := true, has_from_pretrained := true }

/-- Concrete class fixture: a scheduler class. -/
def schedClass : ClassObj :=
  { name := "DDIMScheduler", from_original_model_mixin := false,
    pretrained_model := false, pretrained_tokenizer := false, model_mixin := false,
    scheduler_mixin := true, torch_nn_module := false, has_from_pretrained := true }

/-- Concrete class fixture: a transformers tokenizer class. -/
def tokClass : ClassObj :=
  { name := "CLIPTokenizer", from_original_model_mixin := false,
    pretrained_model := false, pretrained_tokenizer := true, model_mixin := false,
    scheduler_mixin := false, torch_nn_module := false, has_from_pretrained := true }

/-- Concrete class fixture: a transformers text model class. -/
def clipTextClass : ClassObj :=
  { name := "CLIPTextModel", from_original_model_mixin := false,
    pretrained_model := true, pretrained_tokenizer := false, model_mixin := false,
    scheduler_mixin := false, torch_nn_module := true, has_from_pretrained := true }

/-- Concrete class fixture: a class with no loading capability at all. -/
def noCapClass : ClassObj :=
  { name := "Foo", from_original_model_mixin := false,
    pretrained_model := false, pretrained_tokenizer := false, model_mixin := false,
    scheduler_mixin := false, torch_nn_module := false, has_from_pretrained := false }

/-- Concrete class resolution table shared by the test environments. -/
def fixtureResolve (_ipm : Bool) (_lib : String) (cn : String) : ClassObj :=
  if cn == "UNet2DConditionModel" then unetClass
  else if cn == "DDIMScheduler" then schedClass
  else if cn == "CLIPTokenizer" then tokClass
  else if cn == "CLIPTextModel" then clipTextClass
  else noCapClass

/-- Base concrete environment: transformers present, nothing on disk,
hub manifest never cached (local cache miss). -/
def envA : Env :=
  { transformers_available := true, transformers_version_ge_4_20 := true,
    resolve_class := fixtureResolve,
    is_clip_model_in_single_file := fun _ _ => false,
    has_pipeline_module := fun _ => false,
    is_dir := fun _ => false,
    load_checkpoint := fun s => s.length,
    fetch_diffusers_config := fun _ => "org/repo",
    hub_download_config := fun _ => none,
    load_local_config := fun _ =>
      { entries := [], class_name := none, has_ignore_files := false },
    fetch_original_config := fun _ _ => 0,
    run_strategy := fun _ => 42,
    auto_image_processor_from_pretrained := fun _ _ => 77,
    safety_checker_from_pretrained := fun _ _ _ => 99,
    legacy_scheduler := fun _ _ _ _ _ => 55 }

/-- Default caller arguments: nothing supplied. -/
def argsEmpty : Args :=
  { original_config_file := none, config := none, original_config := none,
    local_files_only := false, torch_dtype := none, use_safetensors := none,
    scaling_factor := none, prediction_type := none, load_safety_checker := none,
    scheduler_type := none, kwargs := [] }

/-- Concrete pipeline class fixture with three required components. -/
def pcA : PipelineClass :=
  { name := "StableDiffusionPipeline",
    signature_types :=
      [("unet", unetClass), ("scheduler", schedClass), ("tokenizer", tokClass)],
    expected_modules := ["unet", "scheduler", "tokenizer"],
    optional_kwargs := [],
    optional_components := [] }

/-- Pipeline class fixture with no components at all. -/
def pcEmpty : PipelineClass :=
  { name := "P", signature_types := [], expected_modules := [],
    optional_kwargs := [], optional_components := [] }

/-- Concrete class fixture: the safety checker class as a transformers
model type. -/
def safetyCheckerClass : ClassObj :=
  { name := "StableDiffusionSafetyChecker", from_original_model_mixin := false,
    pretrained_model := true, pretrained_tokenizer := false, model_mixin := false,
    scheduler_mixin := false, torch_nn_module := true, has_from_pretrained := true }

/-- Caller arguments supplying both manifest config sources. -/
def argsBoth : Args :=
  { argsEmpty with config := some "c", original_config := some "o" }

/-- Environment whose inferred identity has two slashes and is not a
directory. -/
def envSlash : Env :=
  { envA with fetch_diffusers_config := fun _ => "a/b/c" }

/-- Environment whose inferred identity has two slashes but is an existing
local directory. -/
def envDir : Env :=
  { envA with is_dir := fun _ => true, fetch_diffusers_config := fun _ => "a/b/c" }

/-- Boolean success test for an Except value. -/
def exceptOk {ε α : Type} : Except ε α → Bool
  | .ok _ => true
  | .error _ => false

/-- Manifest fixture whose two components both have a null spec. -/
def cdC1 : ConfigDict :=
  { entries := [("a", (none, none)), ("b", (none, none))],
    class_name := some "P", has_ignore_files := false }

/-- Manifest fixture with one loadable component and one null spec. -/
def cdC2 : ConfigDict :=
  { entries := [("a", (some "diffusers", some "UNet2DConditionModel")), ("b", (none, none))],
    class_name := some "P", has_ignore_files := false }

/-- Pipeline class fixture with two required components named a and b. -/
def pcC : PipelineClass :=
  { name := "P", signature_types := [], expected_modules := ["a", "b"],
    optional_kwargs := [], optional_components := [] }

/-- Environment serving cdC1 for one checkpoint and cdC2 for another. -/
def envC : Env :=
  { envA with
    is_dir := fun _ => true,
    fetch_diffusers_config := fun n => if n == 1 then "dir1" else "dir2",
    load_local_config := fun d => if d == "dir1" then cdC1 else cdC2 }

/-- Caller arguments passing an instance for component a. -/
def argsC1 : Args :=
  { argsEmpty with kwargs := [("a", some 7)] }

/-- Manifest fixture with a single loadable component. -/
def cdD : ConfigDict :=
  { entries := [("unet", (some "diffusers", some "UNet2DConditionModel"))],
    class_name := some "P2", has_ignore_files := false }

/-- Pipeline class fixture requiring a unet and a safety checker. -/
def pcD : PipelineClass :=
  { name := "P2", signature_types := [], expected_modules := ["unet", "safety_checker"],
    optional_kwargs := [], optional_components := [] }

/-- Environment serving the cdD manifest from a local directory. -/
def envD6 : Env :=
  { envA with is_dir := fun _ => true, load_local_config := fun _ => cdD }

/-- Caller arguments passing a safety checker instance together with the
deprecated load_safety_checker trigger. -/
def argsD : Args :=
  { argsEmpty with kwargs := [("safety_checker", some 7)], load_safety_checker := some true }

/-- Caller arguments passing both deprecated legacy triggers. -/
def args7 : Args :=
  { argsEmpty with load_safety_checker := some true, scheduler_type := some "pndm" }

/-- Caller arguments passing a tokenizer instance. -/
def args6w : Args :=
  { argsEmpty with kwargs := [("tokenizer", some 5)] }

/-- Caller arguments passing only the deprecated scheduler_type trigger. -/
def argsSched : Args :=
  { argsEmpty with scheduler_type := some "pndm" }

theorem lookup_cons_self {α : Type} (k : String) (v : α) (tl : List (String × α)) :
    List.lookup k ((k, v) :: tl) = some v := by
  simp [List.lookup]

theorem lookup_cons_ne {α : Type} (a k : String) (v : α) (tl : List (String × α))
    (h : ¬ k = a) : List.lookup k ((a, v) :: tl) = List.lookup k tl := by
  have hb : (k == a) = false := by
    simp only [beq_eq_false_iff_ne, ne_eq]
    exact h
  simp [List.lookup, hb]

theorem lookup_setKey_self {α : Type} (l : List (String × α)) (k : String) (v : α) :
    (setKey l k v).lookup k = some v := by
  induction l with
  | nil => simp [setKey, List.lookup]
  | cons hd tl ih =>
      obtain ⟨a, b⟩ := hd
      by_cases h : a = k
      · subst h
        simp [setKey, lookup_cons_self]
      · have hb : (a == k) = false := by
          simp only [beq_eq_false_iff_ne, ne_eq]
          exact h
        simp only [setKey, hb, Bool.false_eq_true, if_false]
        rw [lookup_cons_ne a k b _ (fun hh => h hh.symm)]
        exact ih

theorem lookup_setKey_ne {α : Type} (l : List (String × α)) (a k : String) (v : α)
    (h : ¬ k = a) : (setKey l a v).lookup k = l.lookup k := by
  induction l with
  | nil =>
      simp only [setKey]
      rw [lookup_cons_ne a k v [] h]
  | cons hd tl ih =>
      obtain ⟨c, b⟩ := hd
      by_cases hc : c = a
      · subst hc
        have hb : (c == c) = true := by simp
        simp only [setKey, hb, if_true]
        rw [lookup_cons_ne _ _ _ _ h, lookup_cons_ne _ _ _ _ h]
      · have hb : (c == a) = false := by
          simp only [beq_eq_false_iff_ne, ne_eq]
          exact hc
        simp only [setKey, hb, Bool.false_eq_true, if_false]
        by_cases hk : k = c
        · subst hk
          rw [lookup_cons_self, lookup_cons_self]
        · rw [lookup_cons_ne _ _ _ _ hk, lookup_cons_ne _ _ _ _ hk]
          exact ih

theorem lookup_setKey_isSome_mono {α : Type} (l : List (String × α)) (a k : String) (v : α)
    (h : (l.lookup k).isSome = true) : ((setKey l a v).lookup k).isSome = true := by
  by_cases hk : k = a
  · subst hk
    rw [lookup_setKey_self]
    rfl
  · rw [lookup_setKey_ne l a k v hk]
    exact h

theorem lookup_foldl_setKey_not_mem {α : Type} (f : String → α) (ms : List String)
    (ik : List (String × α)) (k : String) (hk : ¬ k ∈ ms) :
    ((ms.foldl (fun acc m => setKey acc m (f m)) ik).lookup k) = ik.lookup k := by
  induction ms generalizing ik with
  | nil => rfl
  | cons m rest ih =>
      have hne : ¬ k = m := fun h => hk (h ▸ List.mem_cons_self m rest)
      have hrest : ¬ k ∈ rest := fun h => hk (List.mem_cons_of_mem m h)
      simp only [List.foldl_cons]
      rw [ih (setKey ik m (f m)) hrest, lookup_setKey_ne ik m k (f m) hne]

theorem lookup_foldl_setKey_mem {α : Type} (f : String → α) (ms : List String)
    (ik : List (String × α)) (k : String) (hk : k ∈ ms) :
    ((ms.foldl (fun acc m => setKey acc m (f m)) ik).lookup k) = some (f k) := by
  induction ms generalizing ik with
  | nil => cases hk
  | cons m rest ih =>
      simp only [List.foldl_cons]
      by_cases hr : k ∈ rest
      · exact ih (setKey ik m (f m)) hr
      · have hm : k = m := by
          rcases List.mem_cons.mp hk with h | h
          · exact h
          · exact absurd h hr
        subst hm
        rw [lookup_foldl_setKey_not_mem f rest (setKey ik k (f k)) k hr,
          lookup_setKey_self]

theorem lookup_some_mem {α : Type} (l : List (String × α)) (k : String) (v : α)
    (h : l.lookup k = some v) : (k, v) ∈ l := by
  induction l with
  | nil => cases h
  | cons hd tl ih =>
      obtain ⟨a, b⟩ := hd
      by_cases hk : k = a
      · subst hk
        rw [lookup_cons_self] at h
        cases h
        exact List.mem_cons_self _ _
      · rw [lookup_cons_ne a k b tl hk] at h
        exact List.mem_cons_of_mem _ (ih h)

theorem lookup_isSome_of_mem_key {α : Type} (l : List (String × α)) (k : String) (v : α)
    (h : (k, v) ∈ l) : (l.lookup k).isSome = true := by
  induction l with
  | nil => cases h
  | cons hd tl ih =>
      obtain ⟨a, b⟩ := hd
      by_cases hk : k = a
      · subst hk
        rw [lookup_cons_self]
        rfl
      · rw [lookup_cons_ne a k b tl hk]
        rcases List.mem_cons.mp h with h0 | h0
        · cases h0
          exact absurd rfl hk
        · exact ih h0

theorem lookup_none_of_keys_ne {α : Type} (l : List (String × α)) (k : String)
    (h : ∀ kv ∈ l, ¬ kv.1 = k) : l.lookup k = none := by
  induction l with
  | nil => rfl
  | cons hd tl ih =>
      obtain ⟨a, b⟩ := hd
      have ha : ¬ a = k := h (a, b) (List.mem_cons_self _ _)
      rw [lookup_cons_ne a k b tl (fun hh => ha hh.symm)]
      exact ih (fun kv hkv => h kv (List.mem_cons_of_mem _ hkv))

theorem lookup_foldl_setKey_pairs_ne {α β : Type} (ps : List (String × β)) (g : String × β → α)
    (ik : List (String × α)) (k : String) (h : ∀ p ∈ ps, ¬ p.1 = k) :
    ((ps.foldl (fun acc p => setKey acc p.1 (g p)) ik).lookup k) = ik.lookup k := by
  induction ps generalizing ik with
  | nil => rfl
  | cons p rest ih =>
      simp only [List.foldl_cons]
      rw [ih (setKey ik p.1 (g p)) (fun q hq => h q (List.mem_cons_of_mem p hq)),
        lookup_setKey_ne ik p.1 k (g p)
          (fun hh => h p (List.mem_cons_self p rest) hh.symm)]

theorem sub_model_events_shape (env : Env) (lib cn dp nm : String) (ck : Checkpoint)
    (ipm : Bool) (oc : Option OrigCfg) (lfo : Bool) (td : Option Dtype) (us : Option Bool)
    (leg : Bool) (strat : LoadStrategy) (evs : List Event)
    (h : load_single_file_sub_model env lib cn dp nm ck ipm oc lfo td us leg
      = .ok (strat, evs)) :
    evs = [] ∨ evs = [Event.fallback_warning nm] := by
  simp only [load_single_file_sub_model] at h
  split at h
  · exact Or.inl (congrArg Prod.snd (Except.ok.inj h)).symm
  · split at h
    · exact Or.inl (congrArg Prod.snd (Except.ok.inj h)).symm
    · split at h
      · cases h
      · split at h
        · exact Or.inr (congrArg Prod.snd (Except.ok.inj h)).symm
        · exact Or.inl (congrArg Prod.snd (Except.ok.inj h)).symm

theorem resolve_config_dict_events_shape (env : Env) (pc : PipelineClass) (dp : String) :
    ∀ e ∈ (resolve_config_dict env pc dp).2,
      e = Event.load_local_config dp ∨ e = Event.hub_download dp ∨
      e = Event.legacy_synth_warning := by
  intro e he
  simp only [resolve_config_dict] at he
  split at he
  · simp only [List.mem_singleton] at he
    exact Or.inl he
  · split at he
    · cases he
    · split at he
      · simp only [List.mem_singleton] at he
        exact Or.inr (Or.inl he)
      · rcases List.mem_cons.mp he with h0 | h0
        · exact Or.inr (Or.inl h0)
        · simp only [List.mem_singleton] at h0
          exact Or.inr (Or.inr h0)

theorem passed_class_obj_mem (pc : PipelineClass) (kwargs : List (String × Option Component))
    (k : String) (v : Option Component) (h : (k, v) ∈ passed_class_obj pc kwargs) :
    k ∈ pc.expected_modules ∧ kwargs.lookup k = some v := by
  simp only [passed_class_obj, List.mem_filterMap] at h
  obtain ⟨a, ha, heq⟩ := h
  cases hl : kwargs.lookup a with
  | none => rw [hl] at heq; cases heq
  | some w =>
      rw [hl] at heq
      simp only [Option.map_some'] at heq
      cases heq
      exact ⟨ha, hl⟩

theorem passed_pipe_kwargs_keys (pc : PipelineClass) (kwargs : List (String × Option Component))
    (p : String × Option Component) (h : p ∈ passed_pipe_kwargs pc kwargs) :
    p.1 ∈ pc.optional_kwargs := by
  simp only [passed_pipe_kwargs, List.mem_filterMap] at h
  obtain ⟨a, ha, heq⟩ := h
  by_cases hc : pc.expected_modules.contains a
  · rw [if_pos hc] at heq
    cases heq
  · rw [if_neg hc] at heq
    cases hl : kwargs.lookup a with
    | none => rw [hl] at heq; cases heq
    | some w => rw [hl] at heq; simp only [Option.map_some'] at heq; cases heq; exact ha

theorem moved_optional_entries_keys (pc : PipelineClass) (init_dict : List (String × CompSpec))
    (p : String × CompSpec) (h : p ∈ moved_optional_entries pc init_dict) :
    p.1 ∈ pc.optional_kwargs := by
  simp only [moved_optional_entries, List.mem_filterMap] at h
  obtain ⟨a, ha, heq⟩ := h
  by_cases hc : pc.optional_components.contains a
  · rw [if_pos hc] at heq
    cases heq
  · rw [if_neg hc] at heq
    cases hl : init_dict.lookup a with
    | none => rw [hl] at heq; cases heq
    | some w => rw [hl] at heq; simp only [Option.map_some'] at heq; cases heq; exact ha

theorem pipeline_init_kwargs0_lookup_none (pc : PipelineClass) (cd0 : ConfigDict)
    (kwargs : List (String × Option Component)) (k : String)
    (hk : ¬ k ∈ pc.optional_kwargs) :
    (pipeline_init_kwargs0 pc cd0 kwargs).lookup k = none := by
  simp only [pipeline_init_kwargs0, initial_init_kwargs]
  rw [lookup_foldl_setKey_pairs_ne _ (fun kv => KwValue.comp kv.2) _ k
    (fun p hp => fun hh => hk (hh ▸ passed_pipe_kwargs_keys pc kwargs p hp))]
  apply lookup_none_of_keys_ne
  intro kv hkv
  simp only [List.mem_map] at hkv
  obtain ⟨q, hq, rfl⟩ := hkv
  exact fun hh => hk (hh ▸ moved_optional_entries_keys pc _ q hq)

section LoopLemmas

variable (env : Env) (ck : Checkpoint) (dp : String) (oc : Option OrigCfg) (args : Args)
  (leg : Bool) (pco : List (String × Option Component))

theorem load_components_events_shape :
    ∀ (l : List (String × CompSpec)) (st st' : LoopState) (err : Option SFError),
      load_components env ck dp oc args leg pco l st = (st', err) →
      ∀ e ∈ st'.events, e ∈ st.events ∨
        (∃ nm lb cb, e = Event.load_sub_model nm lb cb leg) ∨
        (∃ nm, e = Event.fallback_warning nm) := by
  intro l
  induction l with
  | nil =>
      intro st st' err h e he
      simp only [load_components] at h
      cases h
      exact Or.inl he
  | cons hd tl ih =>
      intro st st' err h e he
      obtain ⟨name, spec⟩ := hd
      simp only [load_components] at h
      cases hp : pco.lookup name with
      | some v =>
          simp only [hp] at h
          rcases ih _ _ _ h e he with h0 | h0 | h0
          · exact Or.inl h0
          · exact Or.inr (Or.inl h0)
          · exact Or.inr (Or.inr h0)
      | none =>
          simp only [hp] at h
          cases hs : load_single_file_sub_model env (spec.1.getD "") (spec.2.getD "") dp name ck
              (env.has_pipeline_module (spec.1.getD "")) oc args.local_files_only
              args.torch_dtype args.use_safetensors leg with
          | error e0 =>
              simp only [hs] at h
              cases h
              exact Or.inl he
          | ok pr =>
              obtain ⟨strat, evs⟩ := pr
              simp only [hs] at h
              rcases ih _ _ _ h e he with h0 | h0 | h0
              · rcases List.mem_append.mp h0 with h1 | h1
                · rcases List.mem_append.mp h1 with h2 | h2
                  · exact Or.inl h2
                  · simp only [List.mem_singleton] at h2
                    exact Or.inr (Or.inl ⟨name, spec.1.getD "", spec.2.getD "", h2⟩)
                · rcases sub_model_events_shape env _ _ _ _ _ _ _ _ _ _ _ _ _ hs with h2 | h2
                  · rw [h2] at h1
                    cases h1
                  · rw [h2] at h1
                    simp only [List.mem_singleton] at h1
                    exact Or.inr (Or.inr ⟨name, h1⟩)
              · exact Or.inr (Or.inl h0)
              · exact Or.inr (Or.inr h0)

theorem load_components_isSome_mono :
    ∀ (l : List (String × CompSpec)) (st st' : LoopState) (err : Option SFError),
      load_components env ck dp oc args leg pco l st = (st', err) →
      ∀ k, (st.init_kwargs.lookup k).isSome = true →
        (st'.init_kwargs.lookup k).isSome = true := by
  intro l
  induction l with
  | nil =>
      intro st st' err h k hk
      simp only [load_components] at h
      cases h
      exact hk
  | cons hd tl ih =>
      intro st st' err h k hk
      obtain ⟨name, spec⟩ := hd
      simp only [load_components] at h
      cases hp : pco.lookup name with
      | some v =>
          simp only [hp] at h
          exact ih _ _ _ h k (lookup_setKey_isSome_mono _ _ _ _ hk)
      | none =>
          simp only [hp] at h
          cases hs : load_single_file_sub_model env (spec.1.getD "") (spec.2.getD "") dp name ck
              (env.has_pipeline_module (spec.1.getD "")) oc args.local_files_only
              args.torch_dtype args.use_safetensors leg with
          | error e0 =>
              simp only [hs] at h
              cases h
              exact hk
          | ok pr =>
              obtain ⟨strat, evs⟩ := pr
              simp only [hs] at h
              exact ih _ _ _ h k (lookup_setKey_isSome_mono _ _ _ _ hk)

theorem load_components_covers :
    ∀ (l : List (String × CompSpec)) (st st' : LoopState),
      load_components env ck dp oc args leg pco l st = (st', none) →
      ∀ nm sp, (nm, sp) ∈ l → ((st'.init_kwargs.lookup nm)).isSome = true := by
  intro l
  induction l with
  | nil =>
      intro st st' h nm sp hm
      cases hm
  | cons hd tl ih =>
      intro st st' h nm sp hm
      obtain ⟨name, spec⟩ := hd
      simp only [load_components] at h
      cases hp : pco.lookup name with
      | some v =>
          simp only [hp] at h
          rcases List.mem_cons.mp hm with h0 | h0
          · cases h0
            refine load_components_isSome_mono env ck dp oc args leg pco _ _ _ _ h nm ?_
            rw [lookup_setKey_self]
            rfl
          · exact ih _ _ h nm sp h0
      | none =>
          simp only [hp] at h
          cases hs : load_single_file_sub_model env (spec.1.getD "") (spec.2.getD "") dp name ck
              (env.has_pipeline_module (spec.1.getD "")) oc args.local_files_only
              args.torch_dtype args.use_safetensors leg with
          | error e0 =>
              simp only [hs] at h
              cases h
          | ok pr =>
              obtain ⟨strat, evs⟩ := pr
              simp only [hs] at h
              rcases List.mem_cons.mp hm with h0 | h0
              · cases h0
                refine load_components_isSome_mono env ck dp oc args leg pco _ _ _ _ h nm ?_
                rw [lookup_setKey_self]
                rfl
              · exact ih _ _ h nm sp h0

theorem load_components_lookup_passed (k : String) (v : Option Component)
    (hk : pco.lookup k = some v) :
    ∀ (l : List (String × CompSpec)) (st st' : LoopState) (err : Option SFError),
      load_components env ck dp oc args leg pco l st = (st', err) →
      st'.init_kwargs.lookup k = some (KwValue.comp v) ∨
      st'.init_kwargs.lookup k = st.init_kwargs.lookup k := by
  intro l
  induction l with
  | nil =>
      intro st st' err h
      simp only [load_components] at h
      cases h
      exact Or.inr rfl
  | cons hd tl ih =>
      intro st st' err h
      obtain ⟨name, spec⟩ := hd
      simp only [load_components] at h
      by_cases hnk : name = k
      · subst hnk
        rw [hk] at h
        simp only [] at h
        rcases ih _ _ _ h with h0 | h0
        · exact Or.inl h0
        · left
          rw [h0]
          show (setKey st.init_kwargs name (KwValue.comp v)).lookup name = some (KwValue.comp v)
          exact lookup_setKey_self _ _ _
      · cases hp : pco.lookup name with
        | some w =>
            simp only [hp] at h
            rcases ih _ _ _ h with h0 | h0
            · exact Or.inl h0
            · right
              rw [h0]
              show (setKey st.init_kwargs name (KwValue.comp w)).lookup k = _
              exact lookup_setKey_ne _ _ _ _ (fun hh => hnk hh.symm)
        | none =>
            simp only [hp] at h
            cases hs : load_single_file_sub_model env (spec.1.getD "") (spec.2.getD "") dp name ck
                (env.has_pipeline_module (spec.1.getD "")) oc args.local_files_only
                args.torch_dtype args.use_safetensors leg with
            | error e0 =>
                simp only [hs] at h
                cases h
                exact Or.inr rfl
            | ok pr =>
                obtain ⟨strat, evs⟩ := pr
                simp only [hs] at h
                rcases ih _ _ _ h with h0 | h0
                · exact Or.inl h0
                · right
                  rw [h0]
                  show (setKey st.init_kwargs name _).lookup k = _
                  exact lookup_setKey_ne _ _ _ _ (fun hh => hnk hh.symm)

theorem load_components_no_event_passed (k : String) (v : Option Component)
    (hk : pco.lookup k = some v) :
    ∀ (l : List (String × CompSpec)) (st st' : LoopState) (err : Option SFError),
      load_components env ck dp oc args leg pco l st = (st', err) →
      ∀ lb cb b, Event.load_sub_model k lb cb b ∈ st'.events →
        Event.load_sub_model k lb cb b ∈ st.events := by
  intro l
  induction l with
  | nil =>
      intro st st' err h lb cb b he
      simp only [load_components] at h
      cases h
      exact he
  | cons hd tl ih =>
      intro st st' err h lb cb b he
      obtain ⟨name, spec⟩ := hd
      simp only [load_components] at h
      cases hp : pco.lookup name with
      | some w =>
          simp only [hp] at h
          exact ih _ _ _ h lb cb b he
      | none =>
          have hnk : ¬ name = k := by
            intro hh
            rw [hh, hk] at hp
            cases hp
          simp only [hp] at h
          cases hs : load_single_file_sub_model env (spec.1.getD "") (spec.2.getD "") dp name ck
              (env.has_pipeline_module (spec.1.getD "")) oc args.local_files_only
              args.torch_dtype args.use_safetensors leg with
          | error e0 =>
              simp only [hs] at h
              cases h
              exact he
          | ok pr =>
              obtain ⟨strat, evs⟩ := pr
              simp only [hs] at h
              have h1 := ih _ _ _ h lb cb b he
              rcases List.mem_append.mp h1 with h2 | h2
              · rcases List.mem_append.mp h2 with h3 | h3
                · exact h3
                · simp only [List.mem_singleton] at h3
                  cases h3
                  exact absurd rfl hnk
              · rcases sub_model_events_shape env _ _ _ _ _ _ _ _ _ _ _ _ _ hs with h3 | h3
                · rw [h3] at h2
                  cases h2
                · rw [h3] at h2
                  simp only [List.mem_singleton] at h2
                  cases h2

theorem load_components_last :
    ∀ (l : List (String × CompSpec)) (st st' : LoopState),
      load_components env ck dp oc args leg pco l st = (st', none) →
      (l = [] → st'.last_class_name = st.last_class_name) ∧
      (∀ nmsp, l.getLast? = some nmsp → st'.last_class_name = some (nmsp.2.2.getD "")) := by
  intro l
  induction l with
  | nil =>
      intro st st' h
      simp only [load_components] at h
      cases h
      exact ⟨fun _ => rfl, fun nmsp hl => by cases hl⟩
  | cons hd tl ih =>
      intro st st' h
      obtain ⟨name, spec⟩ := hd
      refine ⟨?_, ?_⟩
      · intro hc
        cases hc
      intro nmsp hl
      simp only [load_components] at h
      cases hp : pco.lookup name with
      | some w =>
          simp only [hp] at h
          cases tl with
          | nil =>
              simp only [List.getLast?_singleton] at hl
              cases hl
              have h2 := (ih _ _ h).1 rfl
              rw [h2]
          | cons t ts =>
              rw [List.getLast?_cons_cons] at hl
              exact (ih _ _ h).2 nmsp hl
      | none =>
          simp only [hp] at h
          cases hs : load_single_file_sub_model env (spec.1.getD "") (spec.2.getD "") dp name ck
              (env.has_pipeline_module (spec.1.getD "")) oc args.local_files_only
              args.torch_dtype args.use_safetensors leg with
          | error e0 =>
              simp only [hs] at h
              cases h
          | ok pr =>
              obtain ⟨strat, evs⟩ := pr
              simp only [hs] at h
              cases tl with
              | nil =>
                  simp only [List.getLast?_singleton] at hl
                  cases hl
                  have h2 := (ih _ _ h).1 rfl
                  rw [h2]
              | cons t ts =>
                  rw [List.getLast?_cons_cons] at hl
                  exact (ih _ _ h).2 nmsp hl

theorem load_components_ok :
    ∀ (l : List (String × CompSpec)),
      (∀ nm sp, (nm, sp) ∈ l → (pco.lookup nm).isSome = true ∨
        ∃ strat evs, load_single_file_sub_model env (sp.1.getD "") (sp.2.getD "") dp nm ck
          (env.has_pipeline_module (sp.1.getD "")) oc args.local_files_only args.torch_dtype
          args.use_safetensors leg = .ok (strat, evs)) →
      ∀ st, ∃ st', load_components env ck dp oc args leg pco l st = (st', none) := by
  intro l
  induction l with
  | nil =>
      intro _ st
      exact ⟨st, rfl⟩
  | cons hd tl ih =>
      intro H st
      obtain ⟨name, spec⟩ := hd
      have Htl : ∀ nm sp, (nm, sp) ∈ tl → (pco.lookup nm).isSome = true ∨
          ∃ strat evs, load_single_file_sub_model env (sp.1.getD "") (sp.2.getD "") dp nm ck
            (env.has_pipeline_module (sp.1.getD "")) oc args.local_files_only args.torch_dtype
            args.use_safetensors leg = .ok (strat, evs) :=
        fun nm sp hm => H nm sp (List.mem_cons_of_mem _ hm)
      cases hp : pco.lookup name with
      | some w =>
          obtain ⟨st', hst'⟩ := ih Htl
            { init_kwargs := setKey st.init_kwargs name (KwValue.comp w),
              events := st.events, last_class_name := some (spec.2.getD "") }
          refine ⟨st', ?_⟩
          simp only [load_components, hp]
          exact hst'
      | none =>
          rcases H name spec (List.mem_cons_self _ _) with h0 | ⟨strat, evs, h0⟩
          · rw [hp] at h0
            cases h0
          · obtain ⟨st', hst'⟩ := ih Htl
              { init_kwargs := setKey st.init_kwargs name
                  (KwValue.comp (some (env.run_strategy strat))),
                events := st.events
                  ++ [.load_sub_model name (spec.1.getD "") (spec.2.getD "") leg] ++ evs,
                last_class_name := some (spec.2.getD "") }
            refine ⟨st', ?_⟩
            simp only [load_components, hp, h0]
            exact hst'

end LoopLemmas

theorem fill_or_fail_ok (pc : PipelineClass) (pco : List (String × Option Component))
    (ik : List (String × KwValue))
    (H : ∀ m ∈ pc.expected_modules, (ik.lookup m).isSome = true ∨
      (pco.lookup m).isSome = true ∨ m ∈ pc.optional_components) :
    ∃ ik1, fill_or_fail pc pco ik = .ok ik1 := by
  by_cases hmiss : missing_modules pc ik = []
  · refine ⟨ik, ?_⟩
    simp [fill_or_fail, hmiss]
  · have hall : (missing_modules pc ik).all
        (fun m => pco.any (fun kv => kv.1 == m) || pc.optional_components.contains m) = true := by
      rw [List.all_eq_true]
      intro m hm
      have hm2 := List.mem_filter.mp hm
      rcases H m hm2.1 with h0 | h0 | h0
      · rw [Option.isNone_iff_eq_none] at hm2
        rw [hm2.2] at h0
        cases h0
      · obtain ⟨v, hv⟩ := Option.isSome_iff_exists.mp h0
        have hmem := lookup_some_mem pco m v hv
        rw [Bool.or_eq_true]
        refine Or.inl ?_
        rw [List.any_eq_true]
        exact ⟨(m, v), hmem, by simp⟩
      · rw [Bool.or_eq_true]
        refine Or.inr ?_
        simpa using h0
    have hlen : decide ((missing_modules pc ik).length > 0) = true := by
      simp only [decide_eq_true_eq, gt_iff_lt, List.length_pos]
      exact hmiss
    refine ⟨(missing_modules pc ik).foldl
      (fun acc m => setKey acc m (KwValue.comp ((pco.lookup m).getD none))) ik, ?_⟩
    simp only [fill_or_fail, hlen, hall, Bool.and_self, if_true]

theorem fill_or_fail_lookup_passed (pc : PipelineClass)
    (pco : List (String × Option Component)) (ik ik1 : List (String × KwValue))
    (k : String) (v : Option Component)
    (h : fill_or_fail pc pco ik = .ok ik1) (hk : pco.lookup k = some v)
    (hexp : k ∈ pc.expected_modules)
    (hik : ik.lookup k = some (KwValue.comp v) ∨ ik.lookup k = none) :
    ik1.lookup k = some (KwValue.comp v) := by
  simp only [fill_or_fail] at h
  by_cases hc : (decide ((missing_modules pc ik).length > 0) &&
      (missing_modules pc ik).all
        (fun m => pco.any (fun kv => kv.1 == m) || pc.optional_components.contains m)) = true
  · rw [if_pos hc] at h
    cases h
    rcases hik with h0 | h0
    · have hnm : ¬ k ∈ missing_modules pc ik := by
        simp only [missing_modules, List.mem_filter]
        rintro ⟨_, hnone⟩
        rw [h0] at hnone
        cases hnone
      rw [lookup_foldl_setKey_not_mem _ _ _ _ hnm]
      exact h0
    · have hm : k ∈ missing_modules pc ik := by
        simp only [missing_modules, List.mem_filter]
        refine ⟨hexp, ?_⟩
        rw [h0]
        rfl
      rw [lookup_foldl_setKey_mem _ _ _ _ hm, hk]
      rfl
  · rw [if_neg (fun hh => hc hh)] at h
    by_cases hl : (missing_modules pc ik).length > 0
    · rw [if_pos hl] at h
      cases h
    · rw [if_neg hl] at h
      cases h
      rcases hik with h0 | h0
      · exact h0
      · exfalso
        have hm : k ∈ missing_modules pc ik := by
          simp only [missing_modules, List.mem_filter]
          refine ⟨hexp, ?_⟩
          rw [h0]
          rfl
        refine hl ?_
        simp only [gt_iff_lt, List.length_pos]
        exact List.ne_nil_of_mem hm

theorem apply_legacy_paths_lookup_ne (env : Env) (ck : Checkpoint) (oc : Option OrigCfg)
    (args : Args) (lastcn : Option String) (ik ik2 : List (String × KwValue))
    (evl : List Event) (k : String)
    (h : apply_legacy_paths env ck oc args lastcn ik = (.ok ik2, evl))
    (hsc : args.load_safety_checker = none ∨
      (¬ k = "safety_checker" ∧ ¬ k = "feature_extractor"))
    (hsch : args.scheduler_type = none ∨ ¬ k = "scheduler") :
    ik2.lookup k = ik.lookup k := by
  simp only [apply_legacy_paths, _legacy_load_safety_checker] at h
  have hstep : ∀ ik0 : List (String × KwValue), (args.load_safety_checker = none → ik0 = ik) →
      (∀ b, args.load_safety_checker = some b →
        ik0 = setKey (setKey ik "safety_checker"
          (KwValue.comp (some (env.safety_checker_from_pretrained
            "CompVis/stable-diffusion-safety-checker" args.local_files_only args.torch_dtype))))
          "feature_extractor"
          (KwValue.comp (some (env.auto_image_processor_from_pretrained
            "CompVis/stable-diffusion-safety-checker" args.local_files_only)))) →
      ik0.lookup k = ik.lookup k := by
    intro ik0 h1 h2
    cases hsf : args.load_safety_checker with
    | none => rw [h1 hsf]
    | some b =>
        rw [h2 b hsf]
        rcases hsc with h3 | h3
        · rw [hsf] at h3
          cases h3
        · rw [lookup_setKey_ne _ _ _ _ h3.2, lookup_setKey_ne _ _ _ _ h3.1]
  cases hsf : args.load_safety_checker with
  | none =>
      rw [hsf] at h
      cases hst : args.scheduler_type with
      | none =>
          rw [hst] at h
          cases h
          rfl
      | some stype =>
          rw [hst] at h
          cases hcn : lastcn with
          | none =>
              rw [hcn] at h
              cases h
          | some cn =>
              rw [hcn] at h
              cases h
              rcases hsch with h3 | h3
              · rw [hst] at h3
                cases h3
              · rw [lookup_setKey_ne _ _ _ _ h3]
  | some b =>
      rw [hsf] at h
      cases hst : args.scheduler_type with
      | none =>
          rw [hst] at h
          cases h
          exact hstep _ (fun hh => by rw [hh] at hsf; cases hsf)
            (fun b0 hb => by simp only [List.foldl_cons, List.foldl_nil]) 
      | some stype =>
          rw [hst] at h
          cases hcn : lastcn with
          | none =>
              rw [hcn] at h
              cases h
          | some cn =>
              rw [hcn] at h
              cases h
              rcases hsch with h3 | h3
              · rw [hst] at h3
                cases h3
              · rw [lookup_setKey_ne _ _ _ _ h3]
                exact hstep _ (fun hh => by rw [hh] at hsf; cases hsf)
                  (fun b0 hb => by simp only [List.foldl_cons, List.foldl_nil])

theorem apply_legacy_paths_events_shape (env : Env) (ck : Checkpoint) (oc : Option OrigCfg)
    (args : Args) (lastcn : Option String) (ik : List (String × KwValue)) :
    ∀ e ∈ (apply_legacy_paths env ck oc args lastcn ik).2,
      e = Event.deprecated "load_safety_checker" ∨ e = Event.legacy_safety_checker ∨
      e = Event.deprecated "scheduler_type" ∨
      (∃ cn stype, e = Event.legacy_scheduler cn stype) := by
  intro e he
  simp only [apply_legacy_paths] at he
  cases hsf : args.load_safety_checker with
  | none =>
      rw [hsf] at he
      cases hst : args.scheduler_type with
      | none =>
          rw [hst] at he
          cases he
      | some stype =>
          rw [hst] at he
          cases hcn : lastcn with
          | none =>
              rw [hcn] at he
              simp only [List.nil_append, List.mem_singleton] at he
              exact Or.inr (Or.inr (Or.inl he))
          | some cn =>
              rw [hcn] at he
              simp only [List.nil_append, List.mem_cons, List.mem_singleton] at he
              rcases he with h0 | h0
              · exact Or.inr (Or.inr (Or.inl h0))
              · rcases h0 with h1 | h1
                · exact Or.inr (Or.inr (Or.inr ⟨cn, stype, h1⟩))
                · cases h1
  | some b =>
      rw [hsf] at he
      cases hst : args.scheduler_type with
      | none =>
          rw [hst] at he
          simp only [List.mem_cons, List.mem_singleton] at he
          rcases he with h0 | h0
          · exact Or.inl h0
          · rcases h0 with h1 | h1
            · exact Or.inr (Or.inl h1)
            · cases h1
      | some stype =>
          rw [hst] at he
          cases hcn : lastcn with
          | none =>
              rw [hcn] at he
              simp only [List.mem_append, List.mem_cons, List.mem_singleton] at he
              rcases he with (h0 | h0) | h0
              · exact Or.inl h0
              · rcases h0 with h1 | h1
                · exact Or.inr (Or.inl h1)
                · cases h1
              · rcases h0 with h1 | h1
                · exact Or.inr (Or.inr (Or.inl h1))
                · cases h1
          | some cn =>
              rw [hcn] at he
              simp only [List.mem_append, List.mem_cons, List.mem_singleton] at he
              rcases he with (h0 | h0) | h0
              · exact Or.inl h0
              · rcases h0 with h1 | h1
                · exact Or.inr (Or.inl h1)
                · cases h1
              · rcases h0 with h1 | h1
                · exact Or.inr (Or.inr (Or.inl h1))
                · rcases h1 with h2 | h2
                  · exact Or.inr (Or.inr (Or.inr ⟨cn, stype, h2⟩))
                  · cases h2

theorem early_events_shape (env : Env) (link : String) (args : Args) :
    ∀ e ∈ early_events env link args,
      e = Event.deprecated "original_config_file" ∨ e = Event.deprecated "scaling_factor" ∨
      e = Event.deprecated "prediction_type" ∨ (∃ s, e = Event.fetch_original s) ∨
      e = Event.load_checkpoint link := by
  intro e he
  simp only [early_events, deprecation_events0, List.mem_append] at he
  rcases he with ((((h0 | h0) | h0) | h0) | h0)
  · cases hof : args.original_config_file with
    | none => rw [hof] at h0; cases h0
    | some f =>
        rw [hof] at h0
        simp only [List.mem_singleton] at h0
        exact Or.inl h0
  · by_cases hsf : args.scaling_factor.isSome
    · rw [if_pos hsf] at h0
      simp only [List.mem_singleton] at h0
      exact Or.inr (Or.inl h0)
    · rw [if_neg hsf] at h0
      cases h0
  · by_cases hpt : args.prediction_type.isSome
    · rw [if_pos hpt] at h0
      simp only [List.mem_singleton] at h0
      exact Or.inr (Or.inr (Or.inl h0))
    · rw [if_neg hpt] at h0
      cases h0
  · cases hoc : effective_original_config args with
    | none => rw [hoc] at h0; cases h0
    | some s =>
        rw [hoc] at h0
        simp only [List.mem_singleton] at h0
        exact Or.inr (Or.inr (Or.inr (Or.inl ⟨s, h0⟩)))
  · simp only [List.mem_singleton] at h0
    exact Or.inr (Or.inr (Or.inr (Or.inr h0)))

theorem effective_original_config_isSome (args : Args) :
    (effective_original_config args).isSome =
      (args.original_config_file.isSome || args.original_config.isSome) := by
  simp only [effective_original_config]
  cases args.original_config_file <;> rfl

theorem from_single_file_ok_decomp (env : Env) (pc : PipelineClass) (link : String)
    (args : Args) (cd0 : ConfigDict) (leg : Bool) (evc : List Event) (st : LoopState)
    (ik1 ik2 : List (String × KwValue)) (evl : List Event)
    (hboth : (args.config.isSome && (effective_original_config args).isSome) = false)
    (hres : resolve_config_dict env pc (resolved_default_path env link args)
      = (.ok (cd0, leg), evc))
    (hloop : load_components env (env.load_checkpoint link)
      (resolved_default_path env link args) (fetched_original_config env args) args leg
      (passed_class_obj pc args.kwargs) (pipeline_init_dict pc cd0 args.kwargs)
      { init_kwargs := pipeline_init_kwargs0 pc cd0 args.kwargs, events := [],
        last_class_name := none } = (st, none))
    (hfill : fill_or_fail pc (passed_class_obj pc args.kwargs) st.init_kwargs = .ok ik1)
    (hleg : apply_legacy_paths env (env.load_checkpoint link)
      (fetched_original_config env args) args st.last_class_name ik1 = (.ok ik2, evl)) :
    from_single_file env pc link args =
      (.ok { pipe_kwargs := ik2, is_legacy_loading := leg, dtype_cast := args.torch_dtype },
       early_events env link args ++ evc ++ st.events ++ evl) := by
  simp only [from_single_file, hboth, Bool.false_eq_true, if_false, hres, hloop, hfill, hleg]

theorem from_single_file_resolve_error (env : Env) (pc : PipelineClass) (link : String)
    (args : Args) (e : SFError) (evc : List Event)
    (hboth : (args.config.isSome && (effective_original_config args).isSome) = false)
    (hres : resolve_config_dict env pc (resolved_default_path env link args)
      = (.error e, evc)) :
    from_single_file env pc link args = (.error e, early_events env link args ++ evc) := by
  simp only [from_single_file, hboth, Bool.false_eq_true, if_false, hres]

/-- C9: in `_map_component_types_to_config_dict` the branch mapping a class
named StableDiffusionSafetyChecker to the library `stable_diffusion` is
unreachable for every input, because its guard implies the guard of the
preceding branch; hence every synthesized component spec carries library
name `diffusers`, `transformers`, or None. -/
theorem c9_safety_checker_branch_unreachable :
    (∀ (env : Env) (c : ClassObj),
      (is_transformers_model_check env c &&
        (c.name == "StableDiffusionSafetyChecker")) = true →
      (is_transformers_model_check env c || is_transformers_tokenizer_check env c) = true) ∧
    (∀ (env : Env) (component_types : List (String × ClassObj)) (kv : String × CompSpec),
      kv ∈ _map_component_types_to_config_dict env component_types →
      kv.2.1 = some "diffusers" ∨ kv.2.1 = some "transformers" ∨ kv.2.1 = none) := by
  constructor
  · intro env c h
    rw [Bool.and_eq_true] at h
    rw [Bool.or_eq_true]
    exact Or.inl h.1
  · intro env ct kv hm
    simp only [_map_component_types_to_config_dict, List.mem_map] at hm
    obtain ⟨q, hq, rfl⟩ := hm
    simp only [_map_component_type]
    by_cases h1 : q.2.model_mixin = true
    · simp [h1]
    · by_cases h2 : ((q.2.name == "KarrasDiffusionSchedulers") || q.2.scheduler_mixin) = true
      · by_cases h3 : (q.2.name == "KarrasDiffusionSchedulers") = true
        · simp [h1, h2, h3]
        · have h5 : q.2.scheduler_mixin = true := by
            rw [Bool.or_eq_true] at h2
            rcases h2 with h0 | h0
            · exact absurd h0 h3
            · exact h0
          simp [h1, h2, h3, h5]
      · by_cases h4 : (is_transformers_model_check env q.2 ||
            is_transformers_tokenizer_check env q.2) = true
        · simp [h1, h2, h4]
        · have hitm : is_transformers_model_check env q.2 = false := by
            cases hx : is_transformers_model_check env q.2 with
            | false => rfl
            | true => exact absurd (by rw [hx, Bool.true_or]) h4
          by_cases h6 : is_transformers_tokenizer_check env q.2 = true
          · simp [h1, h2, h4, hitm, h6]
          · simp [h1, h2, h4, hitm, h6]

/-- C9 witness: a transformers safety checker class is synthesized with
library `transformers`, never `stable_diffusion`. -/
theorem c9_witness :
    (("safety_checker",
      ((some "transformers", some "StableDiffusionSafetyChecker") : CompSpec)) :
        String × CompSpec).2.1 = some "diffusers" ∨
    (("safety_checker",
      ((some "transformers", some "StableDiffusionSafetyChecker") : CompSpec)) :
        String × CompSpec).2.1 = some "transformers" ∨
    (("safety_checker",
      ((some "transformers", some "StableDiffusionSafetyChecker") : CompSpec)) :
        String × CompSpec).2.1 = none :=
  c9_safety_checker_branch_unreachable.2 envA [("safety_checker", safetyCheckerClass)]
    _ (by decide)

/-- C4 (amended): `load_single_file_sub_model` probes the resolved class in
the fixed precedence order native-single-file, then transformers CLIP model
with matching checkpoint keys, then generic pretrained loading, and returns
exactly one strategy; a class with none of these capabilities raises the
fatal unsupported-component error, which identifies the offending component
by its class name only (the component name is not part of the error). -/
theorem c4_dispatch_precedence (env : Env) (lib cn dp nm : String) (ck : Checkpoint)
    (ipm : Bool) (oc : Option OrigCfg) (lfo : Bool) (td : Option Dtype) (us : Option Bool)
    (leg : Bool) :
    ((env.resolve_class ipm lib cn).from_original_model_mixin = true →
      load_single_file_sub_model env lib cn dp nm ck ipm oc lfo td us leg =
        .ok (.single_file ck oc (if oc.isSome then none else some dp) nm td lfo, [])) ∧
    ((env.resolve_class ipm lib cn).from_original_model_mixin = false →
      (is_transformers_model_check env (env.resolve_class ipm lib cn) &&
        env.is_clip_model_in_single_file (env.resolve_class ipm lib cn) ck) = true →
      load_single_file_sub_model env lib cn dp nm ck ipm oc lfo td us leg =
        .ok (.clip_from_ldm ck dp nm td lfo leg, [])) ∧
    ((env.resolve_class ipm lib cn).from_original_model_mixin = false →
      (is_transformers_model_check env (env.resolve_class ipm lib cn) &&
        env.is_clip_model_in_single_file (env.resolve_class ipm lib cn) ck) = false →
      (env.resolve_class ipm lib cn).has_from_pretrained = true →
      load_single_file_sub_model env lib cn dp nm ck ipm oc lfo td us leg =
        .ok (.from_pretrained dp nm lfo us (env.resolve_class ipm lib cn).torch_nn_module td,
          if (env.resolve_class ipm lib cn).model_mixin then [Event.fallback_warning nm]
          else [])) ∧
    ((env.resolve_class ipm lib cn).from_original_model_mixin = false →
      (is_transformers_model_check env (env.resolve_class ipm lib cn) &&
        env.is_clip_model_in_single_file (env.resolve_class ipm lib cn) ck) = false →
      (env.resolve_class ipm lib cn).has_from_pretrained = false →
      load_single_file_sub_model env lib cn dp nm ck ipm oc lfo td us leg =
        .error (.unsupported_component (env.resolve_class ipm lib cn).name)) := by
  refine ⟨?_, ?_, ?_, ?_⟩
  · intro h1
    simp [load_single_file_sub_model, h1]
  · intro h1 h2
    simp only [load_single_file_sub_model, h1, Bool.false_eq_true, if_false,
      Bool.and_eq_true] at *
    simp [h2.1, h2.2]
  · intro h1 h2 h3
    simp [load_single_file_sub_model, h1, h2, h3]
  · intro h1 h2 h3
    simp [load_single_file_sub_model, h1, h2, h3]

/-- C4 counterexample: for a class with no loading capability the raised
error is the same value for two different component names, so it does not
identify the offending component by its name, only by its class. -/
theorem c4_counterexample :
    load_single_file_sub_model envA "lib" "Foo" "org/repo" "unet" 0 false none false none
      none false = .error (.unsupported_component "Foo") ∧
    load_single_file_sub_model envA "lib" "Foo" "org/repo" "vae" 0 false none false none
      none false = .error (.unsupported_component "Foo") := by
  exact ⟨rfl, rfl⟩

/-- C4 witness: a native single-file class dispatches to the single-file
strategy. -/
theorem c4_witness :
    load_single_file_sub_model envA "diffusers" "UNet2DConditionModel" "org/repo" "unet" 0
      false none false none none false =
      .ok (.single_file 0 none
        (if (none : Option OrigCfg).isSome then none else some "org/repo") "unet" none
        false, []) :=
  (c4_dispatch_precedence envA "diffusers" "UNet2DConditionModel" "org/repo" "unet" 0
    false none false none none false).1 (by decide)

/-- C8: in the generic pretrained fallback the torch dtype keyword is
forwarded if and only if the resolved component class is a torch.nn.Module
subclass, and the forwarded value is the caller dtype. -/
theorem c8_dtype_iff_nn_module (env : Env) (lib cn dp nm : String) (ck : Checkpoint)
    (ipm : Bool) (oc : Option OrigCfg) (lfo : Bool) (td : Option Dtype) (us : Option Bool)
    (leg : Bool) (p sf : String) (l : Bool) (u : Option Bool) (dtp : Bool)
    (dt : Option Dtype) (evs : List Event)
    (h : load_single_file_sub_model env lib cn dp nm ck ipm oc lfo td us leg =
      .ok (.from_pretrained p sf l u dtp dt, evs)) :
    dtp = (env.resolve_class ipm lib cn).torch_nn_module ∧ dt = td := by
  simp only [load_single_file_sub_model] at h
  split at h
  · simp at h
  · split at h
    · simp at h
    · split at h
      · cases h
      · simp only [Except.ok.injEq, Prod.mk.injEq, LoadStrategy.from_pretrained.injEq] at h
        exact ⟨h.1.2.2.2.2.1.symm, h.1.2.2.2.2.2.symm⟩

/-- C8 witness: a scheduler class (not a torch.nn.Module) receives no dtype
keyword in the pretrained fallback. -/
theorem c8_witness :
    false = (envA.resolve_class false "diffusers" "DDIMScheduler").torch_nn_module ∧
    (none : Option Dtype) = none :=
  c8_dtype_iff_nn_module envA "diffusers" "DDIMScheduler" "org/repo" "scheduler" 0
    false none false none none false "org/repo" "scheduler" false none false none [] rfl

/-- C1: supplying both `config` and `original_config` (also via the
deprecated `original_config_file` alias) raises the mutual-exclusion
validation error immediately, before any checkpoint or config I/O, for
every combination of the other arguments; the only prior observable
effects are deprecation notices. -/
theorem c1_mutual_exclusion (env : Env) (pc : PipelineClass) (link : String) (args : Args)
    (hc : args.config.isSome = true)
    (ho : args.original_config.isSome = true ∨ args.original_config_file.isSome = true) :
    (from_single_file env pc link args).1 = .error .user_contract_violation ∧
    ∀ e ∈ (from_single_file env pc link args).2, ∃ a, e = Event.deprecated a := by
  have heff : (effective_original_config args).isSome = true := by
    rw [effective_original_config_isSome, Bool.or_eq_true]
    rcases ho with h | h
    · exact Or.inr h
    · exact Or.inl h
  have hcond : (args.config.isSome && (effective_original_config args).isSome) = true := by
    rw [Bool.and_eq_true]
    exact ⟨hc, heff⟩
  constructor
  · simp only [from_single_file, hcond, if_true]
  · intro e he
    simp only [from_single_file, hcond, if_true] at he
    simp only [deprecation_events0] at he
    cases hof : args.original_config_file with
    | none =>
        rw [hof] at he
        cases he
    | some f =>
        rw [hof] at he
        simp only [List.mem_singleton] at he
        exact ⟨"original_config_file", he⟩

/-- C1 witness: the concrete double-config call aborts with the
mutual-exclusion error. -/
theorem c1_witness :
    (from_single_file envA pcA "x" argsBoth).1 = .error .user_contract_violation :=
  (c1_mutual_exclusion envA pcA "x" argsBoth (by decide) (Or.inl (by decide))).1

/-- C5 (amended): when the resolved identity is not an existing local
directory, an identity containing two or more slashes always aborts with
the unresolvable-identity error, and no hub config download is attempted;
an identity that is an existing local directory is exempt from the check. -/
theorem c5_identity_validation (env : Env) (pc : PipelineClass) (link : String) (args : Args)
    (hboth : (args.config.isSome && (effective_original_config args).isSome) = false)
    (hdir : env.is_dir (resolved_default_path env link args) = false)
    (hslash : count_slash (resolved_default_path env link args) > 1) :
    (from_single_file env pc link args).1 =
      .error (.unresolvable_identity (resolved_default_path env link args)) ∧
    ∀ repo, ¬ Event.hub_download repo ∈ (from_single_file env pc link args).2 := by
  have hres : resolve_config_dict env pc (resolved_default_path env link args) =
      (.error (.unresolvable_identity (resolved_default_path env link args)), []) := by
    simp only [resolve_config_dict, hdir, Bool.false_eq_true, if_false, if_pos hslash]
  have hmain := from_single_file_resolve_error env pc link args _ _ hboth hres
  rw [hmain]
  constructor
  · rfl
  · intro repo hmem
    rw [List.append_nil] at hmem
    rcases early_events_shape env link args _ hmem with h0 | h0 | h0 | ⟨s, h0⟩ | h0 <;>
      cases h0

/-- C5 witness: a two-slash non-directory identity aborts with the
unresolvable-identity error. -/
theorem c5_witness :
    (from_single_file envSlash pcEmpty "x" argsEmpty).1 =
      .error (.unresolvable_identity (resolved_default_path envSlash "x" argsEmpty)) :=
  (c5_identity_validation envSlash pcEmpty "x" argsEmpty (by decide) (by decide)
    (by decide)).1

/-- C5 counterexample: an identity with two slashes that is an existing
local directory raises nothing; the claim as stated (always raises) fails
on the code. -/
theorem c5_counterexample :
    count_slash (resolved_default_path envDir "x" argsEmpty) = 2 ∧
    (from_single_file envDir pcEmpty "x" argsEmpty).1 =
      .ok { pipe_kwargs := [], is_legacy_loading := false, dtype_cast := none } := by
  exact ⟨rfl, rfl⟩

/-- C3 (amended): a component whose spec is (None, None) is filtered out of
the loading set (deferred failure); if such a component is required by the
pipeline constructor (non-optional and not passed by the caller), assembly
raises the fatal under-specification error, whose payload reports the
pipeline class, the expected component list and the set of passed or built
component names - the missing component set itself is not part of the
error. -/
theorem c3_null_spec_deferred_failure :
    (∀ (pc : PipelineClass) (cd0 : ConfigDict) (kwargs : List (String × Option Component))
      (nm : String) (sp : CompSpec), (nm, sp) ∈ pipeline_init_dict pc cd0 kwargs →
      sp.1.isSome = true) ∧
    (∀ (pc : PipelineClass) (pco : List (String × Option Component))
      (ik : List (String × KwValue)) (k : String),
      k ∈ pc.expected_modules → ik.lookup k = none → pco.lookup k = none →
      ¬ k ∈ pc.optional_components →
      fill_or_fail pc pco ik =
        .error (.under_specified_pipeline pc.name pc.expected_modules
          (passed_for_error pc ik pco))) := by
  constructor
  · intro pc cd0 kwargs nm sp hm
    simp only [pipeline_init_dict] at hm
    have h2 := (List.mem_filter.mp hm).2
    simp only [load_module] at h2
    cases hx : sp.1 with
    | none =>
        rw [hx] at h2
        cases h2
    | some s => rfl
  · intro pc pco ik k hexp hik hpco hopt
    have hm : k ∈ missing_modules pc ik := by
      simp only [missing_modules, List.mem_filter]
      refine ⟨hexp, ?_⟩
      rw [hik]
      rfl
    have hcond : (decide ((missing_modules pc ik).length > 0) &&
        (missing_modules pc ik).all (fun m => pco.any (fun kv => kv.1 == m) ||
          pc.optional_components.contains m)) = false := by
      cases hall : (missing_modules pc ik).all (fun m => pco.any (fun kv => kv.1 == m) ||
          pc.optional_components.contains m) with
      | false => rw [Bool.and_false]
      | true =>
          exfalso
          have hp := List.all_eq_true.mp hall k hm
          rw [Bool.or_eq_true] at hp
          rcases hp with hp | hp
          · rw [List.any_eq_true] at hp
            obtain ⟨kv, hkv, hbeq⟩ := hp
            have hk1 : kv.1 = k := by simpa using hbeq
            have h5 := lookup_isSome_of_mem_key pco k kv.2 (by rw [← hk1]; exact hkv)
            rw [hpco] at h5
            cases h5
          · have h6 : k ∈ pc.optional_components := by simpa using hp
            exact hopt h6
    have hlen : (missing_modules pc ik).length > 0 := by
      rw [gt_iff_lt, List.length_pos]
      exact List.ne_nil_of_mem hm
    simp only [fill_or_fail, hcond, Bool.false_eq_true, if_false, if_pos hlen]

/-- C3 counterexample: two runs whose missing component sets differ raise
the identical error value, so the error does not name the missing set. -/
theorem c3_counterexample :
    (from_single_file envC pcC "x" argsC1).1 =
      .error (.under_specified_pipeline "P" ["a", "b"] ["a"]) ∧
    (from_single_file envC pcC "xy" argsEmpty).1 =
      .error (.under_specified_pipeline "P" ["a", "b"] ["a"]) ∧
    missing_modules pcC [] = ["a", "b"] ∧
    missing_modules pcC [("a", KwValue.comp (some 42))] = ["b"] := by
  exact ⟨rfl, rfl, rfl, rfl⟩

/-- C3 witness: a surviving loading-set entry has a non-null library, and a
required unfilled unpassed component makes assembly fail with the
under-specification error. -/
theorem c3_witness :
    ((some "diffusers", some "UNet2DConditionModel") : CompSpec).1.isSome = true ∧
    fill_or_fail pcC [] [] =
      .error (.under_specified_pipeline "P" ["a", "b"] (passed_for_error pcC [] [])) :=
  ⟨c3_null_spec_deferred_failure.1 pcC cdC2 [] "a" _ (by decide),
   c3_null_spec_deferred_failure.2 pcC [] [] "a" (by decide) rfl rfl (by decide)⟩

/-- C6 (amended): a caller-passed component instance (including an explicit
None for an optional component) pre-empts loading: no checkpoint sub-model
load happens for that name and the passed value reaches the constructor
keyword set unchanged, unless one of the deprecated legacy paths
(load_safety_checker targeting safety_checker and feature_extractor, or
scheduler_type targeting scheduler) later overwrites that very name. -/
theorem c6_passthrough (env : Env) (pc : PipelineClass) (link : String) (args : Args)
    (cd0 : ConfigDict) (leg : Bool) (evc : List Event) (st : LoopState)
    (ik1 ik2 : List (String × KwValue)) (evl : List Event) (k : String)
    (v : Option Component)
    (hboth : (args.config.isSome && (effective_original_config args).isSome) = false)
    (hres : resolve_config_dict env pc (resolved_default_path env link args)
      = (.ok (cd0, leg), evc))
    (hloop : load_components env (env.load_checkpoint link)
      (resolved_default_path env link args) (fetched_original_config env args) args leg
      (passed_class_obj pc args.kwargs) (pipeline_init_dict pc cd0 args.kwargs)
      { init_kwargs := pipeline_init_kwargs0 pc cd0 args.kwargs, events := [],
        last_class_name := none } = (st, none))
    (hfill : fill_or_fail pc (passed_class_obj pc args.kwargs) st.init_kwargs = .ok ik1)
    (hleg : apply_legacy_paths env (env.load_checkpoint link)
      (fetched_original_config env args) args st.last_class_name ik1 = (.ok ik2, evl))
    (hk : (passed_class_obj pc args.kwargs).lookup k = some v)
    (hko : ¬ k ∈ pc.optional_kwargs)
    (hsc : args.load_safety_checker = none ∨
      (¬ k = "safety_checker" ∧ ¬ k = "feature_extractor"))
    (hsch : args.scheduler_type = none ∨ ¬ k = "scheduler") :
    (from_single_file env pc link args).1 =
      .ok { pipe_kwargs := ik2, is_legacy_loading := leg, dtype_cast := args.torch_dtype } ∧
    ik2.lookup k = some (KwValue.comp v) ∧
    ∀ lb cb b, ¬ Event.load_sub_model k lb cb b ∈ (from_single_file env pc link args).2 := by
  have hmain := from_single_file_ok_decomp env pc link args cd0 leg evc st ik1 ik2 evl
    hboth hres hloop hfill hleg
  have hik0 : (pipeline_init_kwargs0 pc cd0 args.kwargs).lookup k = none :=
    pipeline_init_kwargs0_lookup_none pc cd0 args.kwargs k hko
  have hexp : k ∈ pc.expected_modules :=
    (passed_class_obj_mem pc args.kwargs k v (lookup_some_mem _ _ _ hk)).1
  have hst := load_components_lookup_passed env (env.load_checkpoint link)
    (resolved_default_path env link args) (fetched_original_config env args) args leg
    (passed_class_obj pc args.kwargs) k v hk _ _ _ _ hloop
  have hik1 : ik1.lookup k = some (KwValue.comp v) := by
    refine fill_or_fail_lookup_passed pc _ _ _ k v hfill hk hexp ?_
    rcases hst with h0 | h0
    · exact Or.inl h0
    · refine Or.inr ?_
      rw [h0]
      exact hik0
  have hik2 : ik2.lookup k = some (KwValue.comp v) := by
    rw [apply_legacy_paths_lookup_ne env _ _ args _ ik1 ik2 evl k hleg hsc hsch]
    exact hik1
  refine ⟨by rw [hmain], hik2, ?_⟩
  intro lb cb b hmem
  rw [hmain] at hmem
  simp only [List.mem_append] at hmem
  rcases hmem with ((h0 | h0) | h0) | h0
  · rcases early_events_shape env link args _ h0 with h1 | h1 | h1 | ⟨s, h1⟩ | h1 <;>
      cases h1
  · have hevc := resolve_config_dict_events_shape env pc (resolved_default_path env link args)
    rw [hres] at hevc
    rcases hevc _ h0 with h1 | h1 | h1 <;> cases h1
  · have h1 := load_components_no_event_passed env (env.load_checkpoint link)
      (resolved_default_path env link args) (fetched_original_config env args) args leg
      (passed_class_obj pc args.kwargs) k v hk _ _ _ _ hloop lb cb b h0
    cases h1
  · have hevl := apply_legacy_paths_events_shape env (env.load_checkpoint link)
      (fetched_original_config env args) args st.last_class_name ik1
    rw [hleg] at hevl
    rcases hevl _ h0 with h1 | h1 | h1 | ⟨cn, stype, h1⟩ <;> cases h1

/-- C6 counterexample: a caller-passed safety checker instance is
overwritten by the deprecated load_safety_checker legacy path, so the
passed instance is not placed into the constructor keywords unchanged. -/
theorem c6_counterexample :
    (passed_class_obj pcD argsD.kwargs).lookup "safety_checker" = some (some 7) ∧
    (from_single_file envD6 pcD "x" argsD).1.map
      (fun r => r.pipe_kwargs.lookup "safety_checker") =
      .ok (some (KwValue.comp (some 99))) ∧
    ¬ (KwValue.comp (some 99)) = (KwValue.comp (some 7)) := by
  refine ⟨rfl, rfl, ?_⟩
  decide

/-- C6 witness: a caller-passed tokenizer instance reaches the constructor
keyword set unchanged, with no legacy path triggered. -/
theorem c6_witness :
    (from_single_file envA pcA "x" args6w).1 =
      .ok { pipe_kwargs := [("unet", KwValue.comp (some 42)),
              ("scheduler", KwValue.comp (some 42)), ("tokenizer", KwValue.comp (some 5))],
            is_legacy_loading := true, dtype_cast := none } ∧
    ([("unet", KwValue.comp (some 42)), ("scheduler", KwValue.comp (some 42)),
      ("tokenizer", KwValue.comp (some 5))] : List (String × KwValue)).lookup "tokenizer" =
      some (KwValue.comp (some 5)) := by
  have h := c6_passthrough envA pcA "x" args6w (synthesized_config_dict envA pcA) true
    [Event.hub_download "org/repo", Event.legacy_synth_warning]
    { init_kwargs := [("unet", KwValue.comp (some 42)), ("scheduler", KwValue.comp (some 42)),
        ("tokenizer", KwValue.comp (some 5))],
      events := [Event.load_sub_model "unet" "diffusers" "UNet2DConditionModel" true,
        Event.load_sub_model "scheduler" "diffusers" "DDIMScheduler" true],
      last_class_name := some "CLIPTokenizer" }
    [("unet", KwValue.comp (some 42)), ("scheduler", KwValue.comp (some 42)),
      ("tokenizer", KwValue.comp (some 5))]
    [("unet", KwValue.comp (some 42)), ("scheduler", KwValue.comp (some 42)),
      ("tokenizer", KwValue.comp (some 5))]
    [] "tokenizer" (some 5) (by decide) rfl (by decide) rfl rfl
    (by decide) (by decide) (Or.inl rfl) (Or.inl rfl)
  exact ⟨h.1, h.2.1⟩

/-- C10: when the deprecated scheduler_type argument is supplied and the
loading loop iterated at least one component, the legacy scheduler
constructor receives as its pipeline_class_name argument the class name of
the last entry iterated by the loop (the leaked loop variable class_name),
and no other name is passed to it in the whole run - in particular not the
target pipeline class name. -/
theorem c10_scheduler_gets_loop_class_name (env : Env) (pc : PipelineClass) (link : String)
    (args : Args) (cd0 : ConfigDict) (leg : Bool) (evc : List Event) (st : LoopState)
    (ik1 : List (String × KwValue)) (stype nm : String) (sp : CompSpec)
    (hboth : (args.config.isSome && (effective_original_config args).isSome) = false)
    (hres : resolve_config_dict env pc (resolved_default_path env link args)
      = (.ok (cd0, leg), evc))
    (hloop : load_components env (env.load_checkpoint link)
      (resolved_default_path env link args) (fetched_original_config env args) args leg
      (passed_class_obj pc args.kwargs) (pipeline_init_dict pc cd0 args.kwargs)
      { init_kwargs := pipeline_init_kwargs0 pc cd0 args.kwargs, events := [],
        last_class_name := none } = (st, none))
    (hfill : fill_or_fail pc (passed_class_obj pc args.kwargs) st.init_kwargs = .ok ik1)
    (hst : args.scheduler_type = some stype)
    (hlast : (pipeline_init_dict pc cd0 args.kwargs).getLast? = some (nm, sp)) :
    Event.legacy_scheduler (sp.2.getD "") stype ∈ (from_single_file env pc link args).2 ∧
    ∀ cn, Event.legacy_scheduler cn stype ∈ (from_single_file env pc link args).2 →
      cn = sp.2.getD "" := by
  have hcn : st.last_class_name = some (sp.2.getD "") :=
    (load_components_last env (env.load_checkpoint link)
      (resolved_default_path env link args) (fetched_original_config env args) args leg
      (passed_class_obj pc args.kwargs) _ _ _ hloop).2 (nm, sp) hlast
  have hlegs : ∃ ik2, apply_legacy_paths env (env.load_checkpoint link)
      (fetched_original_config env args) args st.last_class_name ik1 =
      (.ok ik2,
       (match args.load_safety_checker with
        | some _ => [Event.deprecated "load_safety_checker", Event.legacy_safety_checker]
        | none => []) ++
       [Event.deprecated "scheduler_type", Event.legacy_scheduler (sp.2.getD "") stype]) := by
    cases hsf : args.load_safety_checker with
    | none =>
        refine ⟨setKey ik1 "scheduler" (KwValue.comp (some (env.legacy_scheduler
          (sp.2.getD "") (env.load_checkpoint link) (fetched_original_config env args)
          stype args.prediction_type))), ?_⟩
        simp only [apply_legacy_paths, hsf, hst, hcn, List.nil_append]
    | some b =>
        refine ⟨setKey (setKey (setKey ik1 "safety_checker" (KwValue.comp (some
            (env.safety_checker_from_pretrained "CompVis/stable-diffusion-safety-checker"
              args.local_files_only args.torch_dtype)))) "feature_extractor"
            (KwValue.comp (some (env.auto_image_processor_from_pretrained
              "CompVis/stable-diffusion-safety-checker" args.local_files_only))))
            "scheduler" (KwValue.comp (some (env.legacy_scheduler (sp.2.getD "")
              (env.load_checkpoint link) (fetched_original_config env args) stype
              args.prediction_type))), ?_⟩
        simp only [apply_legacy_paths, hsf, hst, hcn, _legacy_load_safety_checker,
          List.foldl_cons, List.foldl_nil, List.cons_append, List.nil_append]
  obtain ⟨ik2, hleg⟩ := hlegs
  have hmain := from_single_file_ok_decomp env pc link args cd0 leg evc st ik1 ik2 _
    hboth hres hloop hfill hleg
  have htr : (from_single_file env pc link args).2 =
      early_events env link args ++ evc ++ st.events ++
      ((match args.load_safety_checker with
        | some _ => [Event.deprecated "load_safety_checker", Event.legacy_safety_checker]
        | none => []) ++
       [Event.deprecated "scheduler_type", Event.legacy_scheduler (sp.2.getD "") stype]) := by
    rw [hmain]
  constructor
  · rw [htr]
    refine List.mem_append_right _ ?_
    refine List.mem_append_right _ ?_
    exact List.mem_cons_of_mem _ (List.mem_cons_self _ _)
  · intro cn hmem
    rw [htr] at hmem
    simp only [List.mem_append] at hmem
    rcases hmem with ((h0 | h0) | h0) | h0 | h0
    · rcases early_events_shape env link args _ h0 with h1 | h1 | h1 | ⟨s, h1⟩ | h1 <;>
        cases h1
    · have hevc := resolve_config_dict_events_shape env pc
        (resolved_default_path env link args)
      rw [hres] at hevc
      rcases hevc _ h0 with h1 | h1 | h1 <;> cases h1
    · rcases load_components_events_shape env (env.load_checkpoint link)
          (resolved_default_path env link args) (fetched_original_config env args) args leg
          (passed_class_obj pc args.kwargs) _ _ _ _ hloop _ h0 with
        h1 | ⟨n2, l2, c2, h1⟩ | ⟨n2, h1⟩
      · cases h1
      · cases h1
      · cases h1
    · cases hsf : args.load_safety_checker with
      | none =>
          rw [hsf] at h0
          cases h0
      | some b =>
          rw [hsf] at h0
          rcases List.mem_cons.mp h0 with h2 | h2
          · cases h2
          · simp only [List.mem_singleton] at h2
            cases h2
    · rcases List.mem_cons.mp h0 with h2 | h2
      · cases h2
      · rw [List.mem_singleton] at h2
        injection h2 with h3 h4

/-- C10 witness: with three loaded components ending at the tokenizer, the
legacy scheduler constructor is invoked with the tokenizer class name
CLIPTokenizer rather than the pipeline class name. -/
theorem c10_witness :
    Event.legacy_scheduler
      (((some "transformers", some "CLIPTokenizer") : CompSpec).2.getD "") "pndm" ∈
      (from_single_file envA pcA "x" argsSched).2 :=
  (c10_scheduler_gets_loop_class_name envA pcA "x" argsSched
    (synthesized_config_dict envA pcA) true
    [Event.hub_download "org/repo", Event.legacy_synth_warning]
    { init_kwargs := [("unet", KwValue.comp (some 42)), ("scheduler", KwValue.comp (some 42)),
        ("tokenizer", KwValue.comp (some 42))],
      events := [Event.load_sub_model "unet" "diffusers" "UNet2DConditionModel" true,
        Event.load_sub_model "scheduler" "diffusers" "DDIMScheduler" true,
        Event.load_sub_model "tokenizer" "transformers" "CLIPTokenizer" true],
      last_class_name := some "CLIPTokenizer" }
    [("unet", KwValue.comp (some 42)), ("scheduler", KwValue.comp (some 42)),
      ("tokenizer", KwValue.comp (some 42))]
    "pndm" "tokenizer" (some "transformers", some "CLIPTokenizer")
    (by decide) rfl (by decide) rfl rfl (by decide)).1

/-- C7: the two deprecated legacy paths (default safety-checker plus
feature-extractor attachment, and legacy scheduler construction) run after
all component loading and the missing-modules check, each exactly when its
trigger argument is present, each emitting its deprecation notice once;
they overwrite or extend the constructor keyword set and each depends only
on its own trigger. -/
theorem c7_legacy_paths (env : Env) (pc : PipelineClass) (link : String) (args : Args)
    (cd0 : ConfigDict) (leg : Bool) (evc : List Event) (st : LoopState)
    (ik1 : List (String × KwValue))
    (hboth : (args.config.isSome && (effective_original_config args).isSome) = false)
    (hres : resolve_config_dict env pc (resolved_default_path env link args)
      = (.ok (cd0, leg), evc))
    (hloop : load_components env (env.load_checkpoint link)
      (resolved_default_path env link args) (fetched_original_config env args) args leg
      (passed_class_obj pc args.kwargs) (pipeline_init_dict pc cd0 args.kwargs)
      { init_kwargs := pipeline_init_kwargs0 pc cd0 args.kwargs, events := [],
        last_class_name := none } = (st, none))
    (hfill : fill_or_fail pc (passed_class_obj pc args.kwargs) st.init_kwargs = .ok ik1)
    (hcn : args.scheduler_type.isSome = true → st.last_class_name.isSome = true) :
    ∃ (r : FromSingleFileResult) (pre : List Event),
      from_single_file env pc link args =
        (.ok r,
         pre ++
          ((match args.load_safety_checker with
            | some _ => [Event.deprecated "load_safety_checker", Event.legacy_safety_checker]
            | none => []) ++
           (match args.scheduler_type, st.last_class_name with
            | some stype, some cn =>
                [Event.deprecated "scheduler_type", Event.legacy_scheduler cn stype]
            | _, _ => []))) ∧
      (∀ e ∈ pre, ¬ e = Event.deprecated "load_safety_checker" ∧
        ¬ e = Event.legacy_safety_checker ∧ ¬ e = Event.deprecated "scheduler_type" ∧
        ∀ cn stype, ¬ e = Event.legacy_scheduler cn stype) ∧
      (∀ nm lb cb b,
        Event.load_sub_model nm lb cb b ∈ (from_single_file env pc link args).2 →
        Event.load_sub_model nm lb cb b ∈ pre) ∧
      (args.load_safety_checker.isSome = true →
        r.pipe_kwargs.lookup "safety_checker" = some (KwValue.comp (some
          (env.safety_checker_from_pretrained "CompVis/stable-diffusion-safety-checker"
            args.local_files_only args.torch_dtype))) ∧
        r.pipe_kwargs.lookup "feature_extractor" = some (KwValue.comp (some
          (env.auto_image_processor_from_pretrained
            "CompVis/stable-diffusion-safety-checker" args.local_files_only)))) ∧
      (∀ stype cn, args.scheduler_type = some stype → st.last_class_name = some cn →
        r.pipe_kwargs.lookup "scheduler" = some (KwValue.comp (some
          (env.legacy_scheduler cn (env.load_checkpoint link)
            (fetched_original_config env args) stype args.prediction_type)))) := by
  have hpre : ∀ e ∈ early_events env link args ++ evc ++ st.events,
      ¬ e = Event.deprecated "load_safety_checker" ∧ ¬ e = Event.legacy_safety_checker ∧
      ¬ e = Event.deprecated "scheduler_type" ∧
      ∀ cn stype, ¬ e = Event.legacy_scheduler cn stype := by
    intro e he
    rcases List.mem_append.mp he with h0 | h0
    · rcases List.mem_append.mp h0 with h1 | h1
      · rcases early_events_shape env link args _ h1 with h2 | h2 | h2 | ⟨s, h2⟩ | h2 <;>
          subst h2 <;>
          refine ⟨?_, ?_, ?_, ?_⟩ <;>
          first
            | (intro h; cases h; done)
            | (intro h; exact absurd h (by decide))
            | (intro cn stype h; cases h; done)
      · have hevc := resolve_config_dict_events_shape env pc
          (resolved_default_path env link args)
        rw [hres] at hevc
        rcases hevc _ h1 with h2 | h2 | h2 <;> subst h2 <;>
          refine ⟨?_, ?_, ?_, ?_⟩ <;>
          first
            | (intro h; cases h; done)
            | (intro cn stype h; cases h; done)
    · rcases load_components_events_shape env (env.load_checkpoint link)
          (resolved_default_path env link args) (fetched_original_config env args) args leg
          (passed_class_obj pc args.kwargs) _ _ _ _ hloop _ h0 with
        h2 | ⟨n, l, c, h2⟩ | ⟨n, h2⟩
      · cases h2
      · subst h2
        refine ⟨?_, ?_, ?_, ?_⟩ <;>
          first
            | (intro h; cases h; done)
            | (intro cn stype h; cases h; done)
      · subst h2
        refine ⟨?_, ?_, ?_, ?_⟩ <;>
          first
            | (intro h; cases h; done)
            | (intro cn stype h; cases h; done)
  cases hsf : args.load_safety_checker with
  | none =>
      cases hstv : args.scheduler_type with
      | none =>
          have hleg : apply_legacy_paths env (env.load_checkpoint link)
              (fetched_original_config env args) args st.last_class_name ik1 =
              (.ok ik1, []) := by
            simp only [apply_legacy_paths, hsf, hstv]
          have hmain := from_single_file_ok_decomp env pc link args cd0 leg evc st ik1 ik1 []
            hboth hres hloop hfill hleg
          refine ⟨⟨ik1, leg, args.torch_dtype⟩,
            early_events env link args ++ evc ++ st.events, ?_, hpre, ?_, ?_, ?_⟩
          · rw [hmain]
            simp [hsf, hstv]
          · intro nm lb cb b hmem
            rw [hmain] at hmem
            simp only [List.append_nil] at hmem
            exact hmem
          · intro hx
            cases hx
          · intro stype cn hx
            cases hx
      | some stype =>
          obtain ⟨cn, hcnv⟩ := Option.isSome_iff_exists.mp (hcn (by rw [hstv]; rfl))
          have hleg : apply_legacy_paths env (env.load_checkpoint link)
              (fetched_original_config env args) args st.last_class_name ik1 =
              (.ok (setKey ik1 "scheduler" (KwValue.comp (some (env.legacy_scheduler cn
                (env.load_checkpoint link) (fetched_original_config env args) stype
                args.prediction_type)))),
               [Event.deprecated "scheduler_type", Event.legacy_scheduler cn stype]) := by
            simp only [apply_legacy_paths, hsf, hstv, hcnv, List.nil_append]
          have hmain := from_single_file_ok_decomp env pc link args cd0 leg evc st ik1 _ _
            hboth hres hloop hfill hleg
          refine ⟨⟨setKey ik1 "scheduler" (KwValue.comp (some
              (env.legacy_scheduler cn (env.load_checkpoint link)
                (fetched_original_config env args) stype args.prediction_type))),
              leg, args.torch_dtype⟩,
            early_events env link args ++ evc ++ st.events, ?_, hpre, ?_, ?_, ?_⟩
          · rw [hmain]
            simp [hsf, hstv, hcnv]
          · intro nm lb cb b hmem
            rw [hmain] at hmem
            rcases List.mem_append.mp hmem with h0 | h0
            · exact h0
            · rcases List.mem_cons.mp h0 with h1 | h1
              · cases h1
              · rw [List.mem_singleton] at h1
                cases h1
          · intro hx
            cases hx
          · intro stype2 cn2 hx hy
            injection hx with hx2
            subst hx2
            rw [hcnv] at hy
            injection hy with hy2
            subst hy2
            rw [lookup_setKey_self]
  | some b =>
      cases hstv : args.scheduler_type with
      | none =>
          have hleg : apply_legacy_paths env (env.load_checkpoint link)
              (fetched_original_config env args) args st.last_class_name ik1 =
              (.ok (setKey (setKey ik1 "safety_checker" (KwValue.comp (some
                  (env.safety_checker_from_pretrained
                    "CompVis/stable-diffusion-safety-checker" args.local_files_only
                    args.torch_dtype)))) "feature_extractor" (KwValue.comp (some
                  (env.auto_image_processor_from_pretrained
                    "CompVis/stable-diffusion-safety-checker" args.local_files_only)))),
               [Event.deprecated "load_safety_checker", Event.legacy_safety_checker]) := by
            simp only [apply_legacy_paths, hsf, hstv, _legacy_load_safety_checker,
              List.foldl_cons, List.foldl_nil]
          have hmain := from_single_file_ok_decomp env pc link args cd0 leg evc st ik1 _ _
            hboth hres hloop hfill hleg
          refine ⟨⟨setKey (setKey ik1 "safety_checker" (KwValue.comp (some
              (env.safety_checker_from_pretrained "CompVis/stable-diffusion-safety-checker"
                args.local_files_only args.torch_dtype)))) "feature_extractor"
              (KwValue.comp (some (env.auto_image_processor_from_pretrained
                "CompVis/stable-diffusion-safety-checker" args.local_files_only))),
              leg, args.torch_dtype⟩,
            early_events env link args ++ evc ++ st.events, ?_, hpre, ?_, ?_, ?_⟩
          · rw [hmain]
            simp [hsf, hstv]
          · intro nm lb cb b2 hmem
            rw [hmain] at hmem
            rcases List.mem_append.mp hmem with h0 | h0
            · exact h0
            · rcases List.mem_cons.mp h0 with h1 | h1
              · cases h1
              · rw [List.mem_singleton] at h1
                cases h1
          · intro hx
            constructor
            · rw [lookup_setKey_ne _ _ _ _ (by decide), lookup_setKey_self]
            · rw [lookup_setKey_self]
          · intro stype2 cn2 hx
            cases hx
      | some stype =>
          obtain ⟨cn, hcnv⟩ := Option.isSome_iff_exists.mp (hcn (by rw [hstv]; rfl))
          have hleg : apply_legacy_paths env (env.load_checkpoint link)
              (fetched_original_config env args) args st.last_class_name ik1 =
              (.ok (setKey (setKey (setKey ik1 "safety_checker" (KwValue.comp (some
                  (env.safety_checker_from_pretrained
                    "CompVis/stable-diffusion-safety-checker" args.local_files_only
                    args.torch_dtype)))) "feature_extractor" (KwValue.comp (some
                  (env.auto_image_processor_from_pretrained
                    "CompVis/stable-diffusion-safety-checker" args.local_files_only))))
                  "scheduler" (KwValue.comp (some (env.legacy_scheduler cn
                    (env.load_checkpoint link) (fetched_original_config env args) stype
                    args.prediction_type)))),
               [Event.deprecated "load_safety_checker", Event.legacy_safety_checker,
                Event.deprecated "scheduler_type", Event.legacy_scheduler cn stype]) := by
            simp only [apply_legacy_paths, hsf, hstv, hcnv, _legacy_load_safety_checker,
              List.foldl_cons, List.foldl_nil, List.cons_append, List.nil_append]
          have hmain := from_single_file_ok_decomp env pc link args cd0 leg evc st ik1 _ _
            hboth hres hloop hfill hleg
          refine ⟨⟨setKey (setKey (setKey ik1 "safety_checker"
              (KwValue.comp (some (env.safety_checker_from_pretrained
                "CompVis/stable-diffusion-safety-checker" args.local_files_only
                args.torch_dtype)))) "feature_extractor" (KwValue.comp (some
              (env.auto_image_processor_from_pretrained
                "CompVis/stable-diffusion-safety-checker" args.local_files_only))))
              "scheduler" (KwValue.comp (some (env.legacy_scheduler cn
                (env.load_checkpoint link) (fetched_original_config env args) stype
                args.prediction_type))),
              leg, args.torch_dtype⟩,
            early_events env link args ++ evc ++ st.events, ?_, hpre, ?_, ?_, ?_⟩
          · rw [hmain]
            simp [hsf, hstv, hcnv]
          · intro nm lb cb b2 hmem
            rw [hmain] at hmem
            rcases List.mem_append.mp hmem with h0 | h0
            · exact h0
            · rcases List.mem_cons.mp h0 with h1 | h1
              · cases h1
              · rcases List.mem_cons.mp h1 with h2 | h2
                · cases h2
                · rcases List.mem_cons.mp h2 with h3 | h3
                  · cases h3
                  · rw [List.mem_singleton] at h3
                    cases h3
          · intro hx
            constructor
            · rw [lookup_setKey_ne _ _ _ _ (by decide),
                lookup_setKey_ne _ _ _ _ (by decide), lookup_setKey_self]
            · rw [lookup_setKey_ne _ _ _ _ (by decide), lookup_setKey_self]
          · intro stype2 cn2 hx hy
            injection hx with hx2
            subst hx2
            rw [hcnv] at hy
            injection hy with hy2
            subst hy2
            rw [lookup_setKey_self]

/-- C7 witness: with both deprecated triggers present, the concrete run
emits both legacy paths after all loading, and both keyword overwrites. -/
theorem c7_witness :
    ∃ (r : FromSingleFileResult) (pre : List Event),
      from_single_file envA pcA "x" args7 =
        (.ok r,
         pre ++
          ((match args7.load_safety_checker with
            | some _ => [Event.deprecated "load_safety_checker", Event.legacy_safety_checker]
            | none => []) ++
           (match args7.scheduler_type, (some "CLIPTokenizer" : Option String) with
            | some stype, some cn =>
                [Event.deprecated "scheduler_type", Event.legacy_scheduler cn stype]
            | _, _ => []))) ∧
      (∀ e ∈ pre, ¬ e = Event.deprecated "load_safety_checker" ∧
        ¬ e = Event.legacy_safety_checker ∧ ¬ e = Event.deprecated "scheduler_type" ∧
        ∀ cn stype, ¬ e = Event.legacy_scheduler cn stype) ∧
      (∀ nm lb cb b,
        Event.load_sub_model nm lb cb b ∈ (from_single_file envA pcA "x" args7).2 →
        Event.load_sub_model nm lb cb b ∈ pre) ∧
      (args7.load_safety_checker.isSome = true →
        r.pipe_kwargs.lookup "safety_checker" = some (KwValue.comp (some
          (envA.safety_checker_from_pretrained "CompVis/stable-diffusion-safety-checker"
            args7.local_files_only args7.torch_dtype))) ∧
        r.pipe_kwargs.lookup "feature_extractor" = some (KwValue.comp (some
          (envA.auto_image_processor_from_pretrained
            "CompVis/stable-diffusion-safety-checker" args7.local_files_only)))) ∧
      (∀ stype cn, args7.scheduler_type = some stype →
        (some "CLIPTokenizer" : Option String) = some cn →
        r.pipe_kwargs.lookup "scheduler" = some (KwValue.comp (some
          (envA.legacy_scheduler cn (envA.load_checkpoint "x")
            (fetched_original_config envA args7) stype args7.prediction_type)))) :=
  c7_legacy_paths envA pcA "x" args7 (synthesized_config_dict envA pcA) true
    [Event.hub_download "org/repo", Event.legacy_synth_warning]
    { init_kwargs := [("unet", KwValue.comp (some 42)), ("scheduler", KwValue.comp (some 42)),
        ("tokenizer", KwValue.comp (some 42))],
      events := [Event.load_sub_model "unet" "diffusers" "UNet2DConditionModel" true,
        Event.load_sub_model "scheduler" "diffusers" "DDIMScheduler" true,
        Event.load_sub_model "tokenizer" "transformers" "CLIPTokenizer" true],
      last_class_name := some "CLIPTokenizer" }
    [("unet", KwValue.comp (some 42)), ("scheduler", KwValue.comp (some 42)),
      ("tokenizer", KwValue.comp (some 42))]
    (by decide) rfl (by decide) rfl (fun _ => rfl)

/-- C2: on a local cache miss for the pipeline manifest, from_single_file
does not fail: it synthesizes the manifest from the declared constructor
parameter types via the type classifier, marks the run is_legacy_loading
(forwarded to every sub-model load), emits the degraded-accuracy warning,
and still constructs the pipeline when every surviving component dispatches
to a loading strategy and every required component is covered by the
loading set, a caller instance, or optional status. -/
theorem c2_cache_miss_synthesis (env : Env) (pc : PipelineClass) (link : String) (args : Args)
    (hboth : (args.config.isSome && (effective_original_config args).isSome) = false)
    (hdir : env.is_dir (resolved_default_path env link args) = false)
    (hslash : ¬ count_slash (resolved_default_path env link args) > 1)
    (hmiss : env.hub_download_config (resolved_default_path env link args) = none)
    (Hload : ∀ nm sp,
      (nm, sp) ∈ pipeline_init_dict pc (synthesized_config_dict env pc) args.kwargs →
      ((passed_class_obj pc args.kwargs).lookup nm).isSome = true ∨
      exceptOk (load_single_file_sub_model env (sp.1.getD "") (sp.2.getD "")
        (resolved_default_path env link args) nm (env.load_checkpoint link)
        (env.has_pipeline_module (sp.1.getD "")) (fetched_original_config env args)
        args.local_files_only args.torch_dtype args.use_safetensors true) = true)
    (Hcover : ∀ m ∈ pc.expected_modules,
      (∃ sp, (m, sp) ∈ pipeline_init_dict pc (synthesized_config_dict env pc) args.kwargs) ∨
      ((passed_class_obj pc args.kwargs).lookup m).isSome = true ∨
      m ∈ pc.optional_components)
    (hsched : args.scheduler_type = none) :
    resolve_config_dict env pc (resolved_default_path env link args) =
      (.ok (synthesized_config_dict env pc, true),
       [.hub_download (resolved_default_path env link args), .legacy_synth_warning]) ∧
    ∃ r, (from_single_file env pc link args).1 = .ok r ∧
      r.is_legacy_loading = true ∧
      Event.legacy_synth_warning ∈ (from_single_file env pc link args).2 ∧
      ∀ n l c b, Event.load_sub_model n l c b ∈ (from_single_file env pc link args).2 →
        b = true := by
  have hres : resolve_config_dict env pc (resolved_default_path env link args) =
      (.ok (synthesized_config_dict env pc, true),
       [.hub_download (resolved_default_path env link args), .legacy_synth_warning]) := by
    simp only [resolve_config_dict, hdir, Bool.false_eq_true, if_false, if_neg hslash, hmiss]
  refine ⟨hres, ?_⟩
  have Hload2 : ∀ nm sp,
      (nm, sp) ∈ pipeline_init_dict pc (synthesized_config_dict env pc) args.kwargs →
      ((passed_class_obj pc args.kwargs).lookup nm).isSome = true ∨
      ∃ strat evs, load_single_file_sub_model env (sp.1.getD "") (sp.2.getD "")
        (resolved_default_path env link args) nm (env.load_checkpoint link)
        (env.has_pipeline_module (sp.1.getD "")) (fetched_original_config env args)
        args.local_files_only args.torch_dtype args.use_safetensors true
        = .ok (strat, evs) := by
    intro nm sp hm
    rcases Hload nm sp hm with h0 | h0
    · exact Or.inl h0
    · refine Or.inr ?_
      cases hx : load_single_file_sub_model env (sp.1.getD "") (sp.2.getD "")
          (resolved_default_path env link args) nm (env.load_checkpoint link)
          (env.has_pipeline_module (sp.1.getD "")) (fetched_original_config env args)
          args.local_files_only args.torch_dtype args.use_safetensors true with
      | error e =>
          rw [hx] at h0
          cases h0
      | ok pr =>
          obtain ⟨strat, evs⟩ := pr
          exact ⟨strat, evs, rfl⟩
  obtain ⟨st, hloop⟩ := load_components_ok env (env.load_checkpoint link)
    (resolved_default_path env link args) (fetched_original_config env args) args true
    (passed_class_obj pc args.kwargs)
    (pipeline_init_dict pc (synthesized_config_dict env pc) args.kwargs) Hload2
    { init_kwargs := pipeline_init_kwargs0 pc (synthesized_config_dict env pc) args.kwargs,
      events := [], last_class_name := none }
  have hfillH : ∀ m ∈ pc.expected_modules, (st.init_kwargs.lookup m).isSome = true ∨
      ((passed_class_obj pc args.kwargs).lookup m).isSome = true ∨
      m ∈ pc.optional_components := by
    intro m hmem
    rcases Hcover m hmem with ⟨sp, hsp⟩ | h0 | h0
    · exact Or.inl (load_components_covers env (env.load_checkpoint link)
        (resolved_default_path env link args) (fetched_original_config env args) args true
        (passed_class_obj pc args.kwargs) _ _ _ hloop m sp hsp)
    · exact Or.inr (Or.inl h0)
    · exact Or.inr (Or.inr h0)
  obtain ⟨ik1, hfill⟩ :=
    fill_or_fail_ok pc (passed_class_obj pc args.kwargs) st.init_kwargs hfillH
  have hlegE : ∃ ik2 evl, apply_legacy_paths env (env.load_checkpoint link)
      (fetched_original_config env args) args st.last_class_name ik1 = (.ok ik2, evl) := by
    cases hsf : args.load_safety_checker with
    | none =>
        refine ⟨ik1, [], ?_⟩
        simp only [apply_legacy_paths, hsf, hsched]
    | some b =>
        refine ⟨setKey (setKey ik1 "safety_checker" (KwValue.comp (some
            (env.safety_checker_from_pretrained "CompVis/stable-diffusion-safety-checker"
              args.local_files_only args.torch_dtype)))) "feature_extractor"
            (KwValue.comp (some (env.auto_image_processor_from_pretrained
              "CompVis/stable-diffusion-safety-checker" args.local_files_only))),
          [Event.deprecated "load_safety_checker", Event.legacy_safety_checker], ?_⟩
        simp only [apply_legacy_paths, hsf, hsched, _legacy_load_safety_checker,
          List.foldl_cons, List.foldl_nil]
  obtain ⟨ik2, evl, hleg⟩ := hlegE
  have hmain := from_single_file_ok_decomp env pc link args
    (synthesized_config_dict env pc) true
    [.hub_download (resolved_default_path env link args), .legacy_synth_warning]
    st ik1 ik2 evl hboth hres hloop hfill hleg
  refine ⟨⟨ik2, true, args.torch_dtype⟩, ?_, rfl, ?_, ?_⟩
  · rw [hmain]
  · rw [hmain]
    refine List.mem_append_left _ ?_
    refine List.mem_append_left _ ?_
    refine List.mem_append_right _ ?_
    exact List.mem_cons_of_mem _ (List.mem_cons_self _ _)
  · intro n l c b hmem
    rw [hmain] at hmem
    rcases List.mem_append.mp hmem with h0 | h0
    · rcases List.mem_append.mp h0 with h1 | h1
      · rcases List.mem_append.mp h1 with h2 | h2
        · rcases early_events_shape env link args _ h2 with h3 | h3 | h3 | ⟨s, h3⟩ | h3 <;>
            cases h3
        · rcases List.mem_cons.mp h2 with h3 | h3
          · cases h3
          · rw [List.mem_singleton] at h3
            cases h3
      · rcases load_components_events_shape env (env.load_checkpoint link)
            (resolved_default_path env link args) (fetched_original_config env args) args
            true (passed_class_obj pc args.kwargs) _ _ _ _ hloop _ h1 with
          h2 | ⟨n2, l2, c2, h2⟩ | ⟨n2, h2⟩
        · cases h2
        · injection h2 with hn hl hc hb
        · cases h2
    · have hevl := apply_legacy_paths_events_shape env (env.load_checkpoint link)
        (fetched_original_config env args) args st.last_class_name ik1
      rw [hleg] at hevl
      rcases hevl _ h0 with h1 | h1 | h1 | ⟨cn, stype, h1⟩ <;> cases h1

/-- C2 witness: the concrete cache-miss run synthesizes the manifest, marks
legacy loading, warns, and builds the pipeline. -/
theorem c2_witness :
    resolve_config_dict envA pcA (resolved_default_path envA "x" argsEmpty) =
      (.ok (synthesized_config_dict envA pcA, true),
       [.hub_download (resolved_default_path envA "x" argsEmpty),
        .legacy_synth_warning]) ∧
    ∃ r, (from_single_file envA pcA "x" argsEmpty).1 = .ok r ∧
      r.is_legacy_loading = true ∧
      Event.legacy_synth_warning ∈ (from_single_file envA pcA "x" argsEmpty).2 ∧
      ∀ n l c b, Event.load_sub_model n l c b ∈ (from_single_file envA pcA "x" argsEmpty).2 →
        b = true := by
  refine c2_cache_miss_synthesis envA pcA "x" argsEmpty (by decide) (by decide) (by decide)
    rfl ?_ ?_ rfl
  · intro nm sp hm
    have hm2 : (nm, sp) = ("unet",
        ((some "diffusers", some "UNet2DConditionModel") : CompSpec)) ∨
        (nm, sp) = ("scheduler", ((some "diffusers", some "DDIMScheduler") : CompSpec)) ∨
        (nm, sp) = ("tokenizer", ((some "transformers", some "CLIPTokenizer") : CompSpec)) := by
      have he : pipeline_init_dict pcA (synthesized_config_dict envA pcA) argsEmpty.kwargs =
          [("unet", ((some "diffusers", some "UNet2DConditionModel") : CompSpec)),
           ("scheduler", ((some "diffusers", some "DDIMScheduler") : CompSpec)),
           ("tokenizer", ((some "transformers", some "CLIPTokenizer") : CompSpec))] := by
        decide
      rw [he] at hm
      simpa only [List.mem_cons, List.not_mem_nil, or_false] using hm
    rcases hm2 with h | h | h <;> cases h <;> exact Or.inr rfl
  · intro m hm
    fin_cases hm
    · exact Or.inl ⟨((some "diffusers", some "UNet2DConditionModel") : CompSpec), by decide⟩
    · exact Or.inl ⟨((some "diffusers", some "DDIMScheduler") : CompSpec), by decide⟩
    · exact Or.inl ⟨((some "transformers", some "CLIPTokenizer") : CompSpec), by decide⟩
